import Mathlib

/-!
# Frame pipeline of the Metal renderers

A shallow embedding of the two renderers that carry the frame pipeline:

* `Perspective`: `src/heavy-metal/05-perspective-redux/Renderer.hpp`, the instanced cube
  renderer with per-frame buffers cycled through frame slots and paced by a semaphore;
* `ArgBuffers`: `src/heavy-metal/02-argbuffers-redux/Renderer.hpp`, the triangle renderer whose
  vertex stage reads its buffers through an argument table.

Machine integers are `Int`/`Nat`; the one `int` that is updated, `_frame`, is shown to stay in
`[0, 3)`, so no wrap-around is ever taken.  The GPU is modelled by the list of command buffers
committed to the single command queue and not yet completed.
-/

namespace Perspective

/-! ## Constants and record sizes -/

/-- File scope, line 6: `static constexpr size_t kNumInstances = 512;`. -/
def kNumInstances : Nat := 512

/-- File scope, line 7: `static constexpr size_t kMaxFramesInFlight = 60;`.  This is the name
the array declarators of `_pInstanceDataBuffer` and `_pCameraDataBuffer` see (lines 26-27): the
class member of the same name is declared only further down, on line 32. -/
def kMaxFramesInFlight : Nat := 60

namespace shader_types

/-- The size of `simd::float4`: four 32-bit floats. -/
def sizeofFloat4 : Nat := 4 * 4

/-- The size of `simd::float4x4`: four `simd::float4` columns. -/
def sizeofFloat4x4 : Nat := 4 * sizeofFloat4

/-- The size of `struct InstanceData { float4x4 instanceTransform; float4 instanceColor; }`. -/
def sizeofInstanceData : Nat := sizeofFloat4x4 + sizeofFloat4

/-- The size of `struct CameraData { float4x4 perspectiveTransform; float4x4 worldTransform; }`. -/
def sizeofCameraData : Nat := sizeofFloat4x4 + sizeofFloat4x4

end shader_types

/-! ## Buffers -/

/-- A byte range `NS::Range::Make(location, length)`. -/
structure Range where
  location : Nat
  length : Nat
deriving DecidableEq, Repr

/-- An `MTL::Buffer` as far as the renderer touches it: its allocated length in bytes, the
number of times the CPU has filled it (its generation), the byte range the last fill wrote and
the range last passed to `didModifyRange`. -/
structure Buffer where
  length : Nat
  generation : Nat
  written : Range
  modified : Option Range
deriving DecidableEq, Repr

/-- The buffer `_pDevice->newBuffer( size, MTL::ResourceStorageModeManaged )` returns. -/
def newBuffer (size : Nat) : Buffer :=
  { length := size, generation := 0, written := ⟨0, 0⟩, modified := none }

/-- An array of buffer pointers, `MTL::Buffer* a[bound]`; an entry nobody assigned is `none`. -/
abbrev BufferArray := List (Option Buffer)

/-- The element `a[ i ]` for an `int` index: `none` when the index is negative, past the
declared bound, or designates an entry that holds no buffer. -/
def BufferArray.at (a : BufferArray) (i : Int) : Option Buffer :=
  if 0 ≤ i then a[i.toNat]?.join else none

/-! ## The renderer and the command queue -/

/-- The members of `Renderer` that frame pacing and slot selection read or write, together with
the state of the GPU side: `inFlight` lists the slots of the command buffers committed to
`_pCommandQueue` whose completed handler has not run yet, oldest first, and `writes` records, in
call order, the slot every `draw` call filled. -/
structure State where
  _pInstanceDataBuffer : BufferArray
  _pCameraDataBuffer : BufferArray
  _frame : Int
  _semaphore : Nat
  inFlight : List Int
  writes : List Int
deriving DecidableEq, Repr

namespace Renderer

/-- Line 36: `const int Renderer::kMaxFramesInFlight = 3;`.  Inside the member functions this
class member hides the file-scope constant of the same name. -/
def kMaxFramesInFlight : Int := 3

/-- Lines 247-249 of `buildBuffers`: `kMaxFramesInFlight * kNumInstances *
sizeof( shader_types::InstanceData )`, with the class member for `kMaxFramesInFlight`. -/
def instanceDataSize : Nat :=
  kMaxFramesInFlight.toNat * kNumInstances * shader_types.sizeofInstanceData

/-- Lines 258-259 of `buildBuffers`: `kMaxFramesInFlight * sizeof( shader_types::CameraData )`. -/
def cameraDataSize : Nat :=
  kMaxFramesInFlight.toNat * shader_types.sizeofCameraData

/-- The loop `for ( size_t i = 0; i < kMaxFramesInFlight; ++i ) a[ i ] = newBuffer( size );`
of `buildBuffers` (lines 251-255 and 261-265), run on an array of the declared bound. -/
def allocateSlots (size : Nat) : BufferArray :=
  (List.range kMaxFramesInFlight.toNat).foldl
    (fun a i => a.set i (some (newBuffer size)))
    (List.replicate Perspective.kMaxFramesInFlight none)

/-- The per-frame part of `Renderer::buildBuffers` (lines 247-265): the two arrays after the
two allocation loops. -/
def buildBuffers : BufferArray × BufferArray :=
  (allocateSlots instanceDataSize, allocateSlots cameraDataSize)

/-- The constructor `Renderer::Renderer` (lines 38-49): `_frame( 0 )`, `buildBuffers()`,
`_semaphore = dispatch_semaphore_create( Renderer::kMaxFramesInFlight )`; nothing has been
committed to the fresh command queue. -/
def init : State :=
  { _pInstanceDataBuffer := buildBuffers.1
    _pCameraDataBuffer := buildBuffers.2
    _frame := 0
    _semaphore := kMaxFramesInFlight.toNat
    inFlight := []
    writes := [] }

/-- How a `draw` call can fail to run to its end. -/
inductive Stop where
  /-- `dispatch_semaphore_wait` does not return: the semaphore count is 0. -/
  | blocked
  /-- The slot index designates no allocated buffer. -/
  | fault
deriving DecidableEq, Repr

/-- The instance loop (lines 305-324) fills records `0 .. kNumInstances - 1`, then line 325
reports `NS::Range::Make( 0, pInstanceDataBuffer->length() )` as modified. -/
def writeInstanceData (b : Buffer) : Buffer :=
  { b with
    generation := b.generation + 1
    written := ⟨0, kNumInstances * shader_types.sizeofInstanceData⟩
    modified := some ⟨0, b.length⟩ }

/-- Lines 334-339: one camera record is stored at the start of the buffer and
`NS::Range::Make( 0, sizeof( shader_types::CameraData ) )` is reported as modified. -/
def writeCameraData (b : Buffer) : Buffer :=
  { b with
    generation := b.generation + 1
    written := ⟨0, shader_types.sizeofCameraData⟩
    modified := some ⟨0, shader_types.sizeofCameraData⟩ }

/-- One call of `Renderer::draw` (lines 268-369), in source order: line 276 advances `_frame`,
line 277 fetches the instance buffer of the advanced index, line 280 waits on the semaphore,
lines 282-284 register the handler that signals it, lines 289-325 fill the instance buffer,
line 329 fetches the camera buffer of the same index, lines 334-339 fill it, and line 366
commits the command buffer, which is then in flight.  A call that finds the count at 0 stays
inside `dispatch_semaphore_wait`: it is `blocked` and takes effect as a step only once a
completion has raised the count (nothing else reads `_frame` meanwhile). -/
def draw (s : State) : Except Stop State :=
  let frame := (s._frame + 1).tmod kMaxFramesInFlight
  match s._pInstanceDataBuffer.at frame with
  | none => .error .fault
  | some pInstanceDataBuffer =>
    match s._semaphore with
    | 0 => .error .blocked
    | n + 1 =>
      match s._pCameraDataBuffer.at frame with
      | none => .error .fault
      | some pCameraDataBuffer =>
        .ok { _pInstanceDataBuffer :=
                s._pInstanceDataBuffer.set frame.toNat
                  (some (writeInstanceData pInstanceDataBuffer))
              _pCameraDataBuffer :=
                s._pCameraDataBuffer.set frame.toNat (some (writeCameraData pCameraDataBuffer))
              _frame := frame
              _semaphore := n
              inFlight := s.inFlight ++ [frame]
              writes := s.writes ++ [frame] }

/-- The GPU finishes the oldest command buffer in flight (one queue completes in submission
order) and runs its completed handler, lines 282-284: `dispatch_semaphore_signal`. -/
def complete (s : State) : Option State :=
  match s.inFlight with
  | [] => none
  | _ :: rest => some { s with inFlight := rest, _semaphore := s._semaphore + 1 }

/-- The two kinds of step of the system. -/
inductive Event where
  | draw
  | complete
deriving DecidableEq, Repr

/-- One step; `none` when the step is not enabled (a blocked `draw`, a completion with nothing
in flight) or when `draw` faults. -/
def step (s : State) : Event → Option State
  | .draw => (draw s).toOption
  | .complete => complete s

/-- A sequence of steps, left to right. -/
def run (s : State) : List Event → Option State
  | [] => some s
  | e :: es => (step s e).bind (fun t => run t es)

/-- The states the renderer can be in: those some sequence of steps reaches from `init`. -/
def Reachable (s : State) : Prop := ∃ es, run init es = some s

/-- The slot the `k`-th `draw` call after construction fills (`k` counted from 0): the value
of `_frame` after `k + 1` executions of line 276 from the initial value 0. -/
def slot (k : Nat) : Int :=
  (fun f : Int => (f + 1).tmod kMaxFramesInFlight)^[k + 1] 0

/-- The state a sequence of steps leads to from `init`; `init` itself when some step of the
sequence is not enabled. -/
def stateAfter (es : List Event) : State :=
  (run init es).getD init

/-- A run of ten `draw` calls: three back to back, then each further call after the
completion of the oldest frame in flight. -/
def tenFrames : List Event :=
  [.draw, .draw, .draw, .complete, .draw, .complete, .draw, .complete, .draw,
    .complete, .draw, .complete, .draw, .complete, .draw, .complete, .draw]

/-- An array as `buildBuffers` leaves it and `draw` keeps it: buffers of the given size in
entries 0, 1, 2 and no buffer in the other 57 entries of the declared bound. -/
def Allocated (size : Nat) (a : BufferArray) : Prop :=
  ∃ b0 b1 b2 : Buffer, a = [some b0, some b1, some b2] ++ List.replicate 57 none ∧
    b0.length = size ∧ b1.length = size ∧ b2.length = size

/-- The generation counter of every buffer of the array equals the number of fills the log
records for its slot. -/
def Counted (a : BufferArray) (writes : List Int) : Prop :=
  ∀ (x : Int) (b : Buffer), a.at x = some b → b.generation = writes.count x

/-- What holds in every reachable state, with `n` the number of `draw` calls so far: `_frame`
is `n mod 3`, the semaphore count and the number of frames in flight add up to 3, the `k`-th
call filled `slot k`, and the frames in flight are the most recent ones. -/
structure Inv (s : State) : Prop where
  frame : s._frame = ((s.writes.length % 3 : Nat) : Int)
  capacity : s._semaphore + s.inFlight.length = 3
  writes : s.writes = (List.range s.writes.length).map slot
  pending_le : s.inFlight.length ≤ s.writes.length
  pending : s.inFlight =
    (List.range' (s.writes.length - s.inFlight.length) s.inFlight.length).map slot
  instanceBuffers : Allocated instanceDataSize s._pInstanceDataBuffer
  cameraBuffers : Allocated cameraDataSize s._pCameraDataBuffer
  instanceFills : Counted s._pInstanceDataBuffer s.writes
  cameraFills : Counted s._pCameraDataBuffer s.writes

end Renderer

end Perspective

namespace Perspective

/-! ## Linear algebra

`simd_math.hpp` is not among the sources at hand.  Its functions are modelled over an
arbitrary field `R` standing for `float` with exact arithmetic; `cosf`, `sinf` and `M_PI` of
the C library are parameters. -/

/-- The C library functions and constant the renderer and `simd_math.hpp` use on `float`. -/
structure Trig (R : Type) where
  cos : R → R
  sin : R → R
  pi : R

/-- A `simd::float3`. -/
structure float3 (R : Type) where
  x : R
  y : R
  z : R

/-- A `simd::float4x4`, as the matrix it denotes: entry `m i j` is row `i` of column `j`. -/
abbrev float4x4 (R : Type) := Matrix (Fin 4) (Fin 4) R

namespace math

variable {R : Type} [Field R]

/-- Modelled from the spec: `math::add` of `simd_math.hpp` (section 4.1, vector add), the
componentwise sum. -/
def add (a b : float3 R) : float3 R :=
  ⟨a.x + b.x, a.y + b.y, a.z + b.z⟩

/-- Modelled from the spec: `math::makeIdentity` of `simd_math.hpp` (section 4.1,
`identity()`). -/
def makeIdentity : float4x4 R :=
  !![1, 0, 0, 0;
     0, 1, 0, 0;
     0, 0, 1, 0;
     0, 0, 0, 1]

/-- Modelled from the spec: `math::makeTranslate` of `simd_math.hpp` (section 4.1,
`translate(v)`, for transforms applied right to left to column vectors): the identity with
`v` in the last column. -/
def makeTranslate (v : float3 R) : float4x4 R :=
  !![1, 0, 0, v.x;
     0, 1, 0, v.y;
     0, 0, 1, v.z;
     0, 0, 0, 1]

/-- Modelled from the spec: `math::makeYRotate` of `simd_math.hpp` (section 4.1,
`rotateY(angle)`): the rotation about the Y axis. -/
def makeYRotate (t : Trig R) (angleRadians : R) : float4x4 R :=
  !![t.cos angleRadians, 0, t.sin angleRadians, 0;
     0, 1, 0, 0;
     -t.sin angleRadians, 0, t.cos angleRadians, 0;
     0, 0, 0, 1]

/-- Modelled from the spec: `math::makeZRotate` of `simd_math.hpp` (section 4.1,
`rotateZ(angle)`): the rotation about the Z axis. -/
def makeZRotate (t : Trig R) (angleRadians : R) : float4x4 R :=
  !![t.cos angleRadians, t.sin angleRadians, 0, 0;
     -t.sin angleRadians, t.cos angleRadians, 0, 0;
     0, 0, 1, 0;
     0, 0, 0, 1]

/-- Modelled from the spec: `math::makeScale` of `simd_math.hpp` (section 4.1, `scale(v)`):
the diagonal matrix of `v` and 1. -/
def makeScale (v : float3 R) : float4x4 R :=
  !![v.x, 0, 0, 0;
     0, v.y, 0, 0;
     0, 0, v.z, 0;
     0, 0, 0, 1]

end math

namespace Renderer

variable {R : Type} [Field R]

/-- Line 288 of `draw`: `const float scl = 0.1f;`. -/
def scl : R := 1 / 10

/-- Line 293 of `draw`: `float3 objectPosition = { 0.f, 0.f, -5.f };`. -/
def objectPosition : float3 R := ⟨0, 0, -5⟩

/-- Lines 297-303 of `draw`: `fullObjectRot = rt * rr * rtInv`. -/
def fullObjectRot (t : Trig R) (angle : R) : float4x4 R :=
  let rt := math.makeTranslate (objectPosition : float3 R)
  let rr := math.makeYRotate t (-angle)
  let rtInv := math.makeTranslate
    (⟨-(objectPosition : float3 R).x, -(objectPosition : float3 R).y,
      -(objectPosition : float3 R).z⟩ : float3 R)
  rt * rr * rtInv

/-- Lines 307-317 of `draw`: the value stored in `pInstanceData[ i ].instanceTransform` when
`_angle` holds `angle`. -/
def instanceTransform (t : Trig R) (angle : R) (i : Nat) : float4x4 R :=
  let iDivNumInstances : R := (i : R) / (kNumInstances : R)
  let xoff : R := (iDivNumInstances * 2 - 1) + 1 / (kNumInstances : R)
  let yoff : R := t.sin ((iDivNumInstances + angle) * 2 * t.pi)
  let scale := math.makeScale (⟨scl, scl, scl⟩ : float3 R)
  let zrot := math.makeZRotate t angle
  let yrot := math.makeYRotate t angle
  let translate := math.makeTranslate (math.add objectPosition ⟨xoff, yoff, 0⟩)
  fullObjectRot t angle * translate * yrot * zrot * scale

/-- The last row of the matrix is `(0, 0, 0, 1)`. -/
def IsAffine (m : float4x4 R) : Prop :=
  m 3 0 = 0 ∧ m 3 1 = 0 ∧ m 3 2 = 0 ∧ m 3 3 = 1

/-- The upper-left 3x3 block of the matrix. -/
def upperLeft (m : float4x4 R) : Matrix (Fin 3) (Fin 3) R :=
  Matrix.of fun i j => m i.castSucc j.castSucc

end Renderer

end Perspective

namespace ArgBuffers

/-! ## The argument-buffer renderer -/

/-- A `simd::float3`; the components are the values of the source literals. -/
structure float3 where
  x : ℚ
  y : ℚ
  z : ℚ
deriving DecidableEq

/-- The size of `simd::float3` in bytes: it is stored as four floats. -/
def sizeofFloat3 : Nat := 16

/-- A byte range `NS::Range::Make(location, length)`. -/
structure Range where
  location : Nat
  length : Nat
deriving DecidableEq

/-- What `MTL::ArgumentEncoder::setBuffer( buffer, offset, index )` stores in the table: under
the argument id `index`, the buffer (by its handle on the device) and the offset. -/
structure Argument where
  index : Nat
  buffer : Nat
  offset : Nat
deriving DecidableEq

/-- An `MTL::Buffer`: its length in bytes, the vectors copied into it, the arguments encoded
into it (most recent first) and the range last passed to `didModifyRange`. -/
structure Buffer where
  length : Nat
  contents : List float3
  arguments : List Argument
  modified : Option Range
deriving DecidableEq

/-- The buffers of the `MTL::Device`; a buffer pointer is its position in this list. -/
abbrev Device := List Buffer

/-- The call `_pDevice->newBuffer( size, MTL::ResourceStorageModeManaged )`: the device with
the new buffer, and the pointer to it. -/
def newBuffer (d : Device) (size : Nat) : Device × Nat :=
  (d ++ [{ length := size, contents := [], arguments := [], modified := none }], d.length)

/-- The call `memcpy( p->contents(), src, n )` on an array of `simd::float3`: the first
`n / sizeof( simd::float3 )` vectors of `src` become the contents. -/
def memcpy (d : Device) (p : Nat) (src : List float3) (n : Nat) : Device :=
  d.modify (fun b => { b with contents := src.take (n / sizeofFloat3) }) p

/-- The call `p->didModifyRange( NS::Range::Make( 0, p->length() ) )`. -/
def didModifyWhole (d : Device) (p : Nat) : Device :=
  d.modify (fun b => { b with modified := some ⟨0, b.length⟩ }) p

/-- An `MTL::ArgumentEncoder`: the buffer index of the vertex function it was created for,
the encoded length of the table it lays out, and the buffer and offset it writes to. -/
structure ArgumentEncoder where
  bufferIndex : Nat
  encodedLength : Nat
  argumentBuffer : Option (Nat × Nat)
deriving DecidableEq

/-- The call `pVertexFn->newArgumentEncoder( bufferIndex )`; the encoded length is fixed by
Metal from the argument structure of the shader and is a parameter here. -/
def newArgumentEncoder (encodedLength bufferIndex : Nat) : ArgumentEncoder :=
  { bufferIndex := bufferIndex, encodedLength := encodedLength, argumentBuffer := none }

/-- The call `pArgEncoder->setArgumentBuffer( p, offset )`. -/
def ArgumentEncoder.setArgumentBuffer (e : ArgumentEncoder) (p offset : Nat) :
    ArgumentEncoder :=
  { e with argumentBuffer := some (p, offset) }

/-- The call `pArgEncoder->setBuffer( p, offset, index )`: the argument is encoded into the
buffer the encoder writes to. -/
def ArgumentEncoder.setBuffer (e : ArgumentEncoder) (d : Device) (p offset index : Nat) :
    Device :=
  match e.argumentBuffer with
  | some (table, _) =>
    d.modify (fun b => { b with arguments := ⟨index, p, offset⟩ :: b.arguments }) table
  | none => d

/-- The members of `Renderer` that `buildBuffers` sets, with the device they point into. -/
structure Renderer where
  device : Device
  _pArgBuffer : Nat
  _pVertexPositionsBuffer : Nat
  _pVertexColorsBuffer : Nat
deriving DecidableEq

namespace Renderer

/-- Line 122 of `buildBuffers`: `const size_t NumVertices = 3;`. -/
def NumVertices : Nat := 3

/-- Lines 124-129 of `buildBuffers`: `simd::float3 positions[NumVertices]`. -/
def positions : List float3 :=
  [⟨-0.8, 0.8, 0.0⟩, ⟨0.0, -0.8, 0.0⟩, ⟨0.8, 0.8, 0.0⟩]

/-- Lines 131-136 of `buildBuffers`: `simd::float3 colors[NumVertices]`. -/
def colors : List float3 :=
  [⟨1.0, 0.3, 0.2⟩, ⟨0.8, 1.0, 0.0⟩, ⟨0.8, 0.0, 1.0⟩]

/-- Line 138: `positionsDataSize = NumVertices * sizeof( simd::float3 )`. -/
def positionsDataSize : Nat := NumVertices * sizeofFloat3

/-- Line 139: `colorDataSize = NumVertices * sizeof( simd::float3 )`. -/
def colorDataSize : Nat := NumVertices * sizeofFloat3

/-- The usage flags `MTL::ResourceUsage` passed to `useResource`. -/
inductive ResourceUsage where
  | read
  | write
deriving DecidableEq

/-- The calls `Renderer::draw` makes on the render command encoder. -/
inductive Command where
  | setRenderPipelineState
  | setVertexBuffer (buffer offset index : Nat)
  | useResource (buffer : Nat) (usage : ResourceUsage)
  | drawPrimitives (vertexStart vertexCount : Nat)
  | endEncoding
deriving DecidableEq

/-- The function `Renderer::draw` (lines 185-206): the calls on `pEnc`, in source order. -/
def draw (r : Renderer) : List Command :=
  [ .setRenderPipelineState,
    .setVertexBuffer r._pArgBuffer 0 0,
    .useResource r._pVertexPositionsBuffer .read,
    .useResource r._pVertexColorsBuffer .read,
    .drawPrimitives 0 3,
    .endEncoding ]

/-- The argument the table of the renderer holds under an id: the most recent one encoded. -/
def resolve (r : Renderer) (index : Nat) : Option Argument :=
  (r.device[r._pArgBuffer]?).bind (fun t => t.arguments.find? (fun a => a.index == index))

/-- The buffers a command list binds directly, with offset and vertex buffer index. -/
def boundVertexBuffers (cs : List Command) : List (Nat × Nat × Nat) :=
  cs.filterMap (fun c => match c with
    | .setVertexBuffer b o i => some (b, o, i)
    | _ => none)

end Renderer

end ArgBuffers

namespace Perspective

/-! ## The camera record -/

namespace math

variable {R : Type} [Field R]

/-- Modelled from the spec: `math::makePerspective` of `simd_math.hpp` (section 4.1,
`perspective(fovRadians, aspect, near, far)`; section 8, the near plane goes to depth 0 and
the far plane to depth 1): the projection of a view looking down the negative Z axis onto the
depth range from 0 to 1, applied to column vectors; `tanf` is `sinf / cosf`. -/
def makePerspective (t : Trig R) (fovRadians aspect znear zfar : R) : float4x4 R :=
  let ys : R := 1 / (t.sin (fovRadians * (1 / 2)) / t.cos (fovRadians * (1 / 2)))
  let xs : R := ys / aspect
  let zs : R := zfar / (znear - zfar)
  !![xs, 0, 0, 0;
     0, ys, 0, 0;
     0, 0, zs, znear * zs;
     0, 0, -1, 0]

end math

namespace shader_types

/-- Lines 80-84: `struct CameraData { float4x4 perspectiveTransform; float4x4
worldTransform; }`. -/
structure CameraData (R : Type) where
  perspectiveTransform : float4x4 R
  worldTransform : float4x4 R

end shader_types

namespace Renderer

variable {R : Type} [Field R]

/-- Lines 334-338 of `draw`: the record stored through `pCameraData` by a call that finds the
members `_angle` and `_frame` as given; neither enters the record. -/
def cameraData (t : Trig R) (_angle : R) (_frame : Int) : shader_types.CameraData R :=
  { perspectiveTransform := math.makePerspective t (45 * t.pi / 180) 1 (3 / 100) 500
    worldTransform := math.makeIdentity }

/-- Line 128 of the vertex shader: `cameraData.perspectiveTransform *
cameraData.worldTransform * pos`, the clip-space position of a position `pos`. -/
def clipPosition (c : shader_types.CameraData R) (pos : Fin 4 → R) : Fin 4 → R :=
  (c.perspectiveTransform * c.worldTransform).mulVec pos

/-- The normalized device depth of a clip-space position: `z / w`. -/
def depth (p : Fin 4 → R) : R := p 2 / p 3

end Renderer

end Perspective

namespace Perspective

/-! ## Byte ranges of the per-frame writes -/

/-- The byte range `r` lies inside the byte range `outer`. -/
def Range.within (r outer : Range) : Prop :=
  outer.location ≤ r.location ∧ r.location + r.length ≤ outer.location + outer.length

instance (r outer : Range) : Decidable (r.within outer) :=
  inferInstanceAs (Decidable (_ ∧ _))

namespace Renderer

/-- The bytes of `pInstanceData[ i ]`, the record the instance loop of `draw` stores in
iteration `i` (lines 317 and 323): `sizeof( shader_types::InstanceData )` bytes from offset
`i * sizeof( shader_types::InstanceData )`. -/
def instanceRecordRange (i : Nat) : Range :=
  ⟨i * shader_types.sizeofInstanceData, shader_types.sizeofInstanceData⟩

/-- The bytes of `*pCameraData`, the record lines 334-338 of `draw` store. -/
def cameraRecordRange : Range :=
  ⟨0, shader_types.sizeofCameraData⟩

end Renderer

end Perspective

namespace Perspective

/-! ## The cube geometry -/

namespace Renderer

/-- Line 196 of `buildBuffers`: `const float s = 0.5f;`.  The corners and all the sums and
products formed from them below are exact in `float`, so the rationals compute the same
values. -/
def s : ℚ := 1 / 2

/-- Lines 198-208 of `buildBuffers`: `float3 verts[]`, the corners of the cube. -/
def verts : List (float3 ℚ) :=
  [ ⟨-s, -s, s⟩,
    ⟨s, -s, s⟩,
    ⟨s, s, s⟩,
    ⟨-s, s, s⟩,
    ⟨-s, -s, -s⟩,
    ⟨-s, s, -s⟩,
    ⟨s, s, -s⟩,
    ⟨s, -s, -s⟩ ]

/-- Lines 210-228 of `buildBuffers`: `uint16_t indices[]`, two triangles for each of the
faces front, right, back, left, top, bottom. -/
def indices : List Nat :=
  [ 0, 1, 2,
    2, 3, 0,
    1, 7, 6,
    6, 2, 1,
    7, 4, 5,
    5, 6, 7,
    4, 0, 3,
    3, 5, 4,
    3, 2, 6,
    6, 5, 3,
    4, 7, 1,
    1, 0, 4 ]

/-- The culling modes `MTL::CullMode`. -/
inductive CullMode where
  | none
  | front
  | back
deriving DecidableEq

/-- The winding orders `MTL::Winding`. -/
inductive Winding where
  | clockwise
  | counterClockwise
deriving DecidableEq

/-- Line 354 of `draw`: `pEnc->setCullMode( MTL::CullModeBack )`. -/
def cullMode : CullMode := .back

/-- Line 355 of `draw`: `pEnc->setFrontFacingWinding( MTL::Winding::WindingCounterClockwise )`. -/
def frontFacingWinding : Winding := .counterClockwise

/-- Line 358 of `draw`: the index count `6 * 6` passed to `drawIndexedPrimitives`. -/
def indexCount : Nat := 6 * 6

/-- The consecutive index triples of an index list, as `PrimitiveTypeTriangle` reads them. -/
def triangles : List Nat → List (Nat × Nat × Nat)
  | a :: b :: c :: rest => (a, b, c) :: triangles rest
  | _ => []

/-- The difference of two vectors. -/
def sub (a b : float3 ℚ) : float3 ℚ :=
  ⟨a.x - b.x, a.y - b.y, a.z - b.z⟩

/-- The cross product of two vectors. -/
def cross (a b : float3 ℚ) : float3 ℚ :=
  ⟨a.y * b.z - a.z * b.y, a.z * b.x - a.x * b.z, a.x * b.y - a.y * b.x⟩

/-- The dot product of two vectors. -/
def dot (a b : float3 ℚ) : ℚ :=
  a.x * b.x + a.y * b.y + a.z * b.z

/-- The corner of the cube an index designates; `none` past the end of `verts`. -/
def vertex (i : Nat) : Option (float3 ℚ) :=
  verts[i]?

/-- For a triangle of corners `va`, `vb`, `vc`: the dot product of its normal
`(vb - va) x (vc - va)` with its centroid, the cube being centred at the origin. -/
def outwardness (va vb vc : float3 ℚ) : ℚ :=
  dot (cross (sub vb va) (sub vc va))
    ⟨(va.x + vb.x + vc.x) / 3, (va.y + vb.y + vc.y) / 3, (va.z + vb.z + vc.z) / 3⟩

/-- A triangle of indices is counter-clockwise seen from outside the cube: its three indices
designate corners and its normal has a strictly positive dot product with its centroid. -/
def facesOutward (tri : Nat × Nat × Nat) : Bool :=
  match vertex tri.1, vertex tri.2.1, vertex tri.2.2 with
  | some va, some vb, some vc => decide (0 < outwardness va vb vc)
  | _, _, _ => false

end Renderer

end Perspective

namespace ArgBuffers

/-! ## The vertex function of the argument-buffer renderer -/

namespace Shader

/-- The identifiers the body of `vertexMain` mentions (lines 66-73 of the shader source). -/
inductive Name where
  | vertexData
  | vertexId
  | positions
  | colors
deriving DecidableEq

/-- The expressions of the body of `vertexMain` that read data. -/
inductive Expr where
  /-- An identifier on its own, looked up in the scope of the function. -/
  | ident (n : Name)
  /-- The member access `e->member`. -/
  | arrow (e : Expr) (member : Name)
  /-- The subscript `e[ i ]`. -/
  | subscript (e i : Expr)
deriving DecidableEq

/-- Lines 66-67: the parameters of `vertexMain`, `vertexData [[buffer(0)]]` and
`vertexId [[vertex_id]]`. -/
def parameters : List Name := [.vertexData, .vertexId]

/-- Line 66: the buffer index of the parameter `vertexData`, `[[buffer(0)]]`. -/
def vertexDataBufferIndex : Nat := 0

/-- Lines 60-64: the argument ids of the members of `struct VertexData`,
`positions [[id(0)]]` and `colors [[id(1)]]`. -/
def memberId : Name → Option Nat
  | .positions => some 0
  | .colors => some 1
  | _ => none

/-- Line 70: the argument of `float4( ·, 1.0 )` assigned to `o.position`,
`positions[ vertexId ]`. -/
def positionExpr : Expr :=
  .subscript (.ident .positions) (.ident .vertexId)

/-- Line 71: the argument of `half3( · )` assigned to `o.color`,
`vertexData->colors[ vertexId ]`. -/
def colorExpr : Expr :=
  .subscript (.arrow (.ident .vertexData) .colors) (.ident .vertexId)

/-- The identifiers an expression looks up in the scope of the function: those that are not
member names behind `->`. -/
def Expr.identifiers : Expr → List Name
  | .ident n => [n]
  | .arrow e _ => e.identifiers
  | .subscript e i => e.identifiers ++ i.identifiers

/-- The values of the expressions. -/
inductive Value where
  /-- A `device const VertexData*`: the argument table in the buffer with this pointer. -/
  | table (p : Nat)
  /-- A `device float3*`: a buffer and a byte offset into it. -/
  | pointer (p offset : Nat)
  /-- A `uint`. -/
  | uint (n : Nat)
  /-- A `float3`. -/
  | vector (v : float3)
deriving DecidableEq

/-- Why an expression has no value. -/
inductive Error where
  /-- The identifier is declared nowhere in scope: the shader source does not compile. -/
  | undeclared (n : Name)
  /-- The operand is not of the kind the operator needs, or names no member. -/
  | illTyped
  /-- No buffer is bound, no argument is encoded, or the subscript is past the end. -/
  | unbound
deriving DecidableEq

/-- The scope of the body of `vertexMain` for a vertex id: the two parameters.  The parameter
`vertexData` is the buffer the draw call bound at its buffer index; the source declares no
global and no other local that is read. -/
def lookup (r : Renderer) (vertexId : Nat) : Name → Except Error Value
  | .vertexData =>
    match (Renderer.boundVertexBuffers (Renderer.draw r)).find?
        (fun b => b.2.2 == vertexDataBufferIndex) with
    | some (p, _, _) => .ok (.table p)
    | none => .error .unbound
  | .vertexId => .ok (.uint vertexId)
  | n => .error (.undeclared n)

/-- The member `member` of the argument table in buffer `p`: the pointer encoded under the
argument id of the member. -/
def readMember (r : Renderer) (p : Nat) (member : Name) : Except Error Value :=
  match memberId member with
  | none => .error .illTyped
  | some id =>
    match (r.device[p]?).bind (fun t => t.arguments.find? (fun a => a.index == id)) with
    | some a => .ok (.pointer a.buffer a.offset)
    | none => .error .unbound

/-- The element `k` of the `float3` array at a byte offset of buffer `p`. -/
def readElement (r : Renderer) (p offset k : Nat) : Except Error Value :=
  match (r.device[p]?).bind (fun b => (b.contents.drop (offset / sizeofFloat3))[k]?) with
  | some v => .ok (.vector v)
  | none => .error .unbound

/-- The value of an expression of the body of `vertexMain`, for the renderer whose `draw`
issued the draw call and a vertex id. -/
def eval (r : Renderer) (vertexId : Nat) : Expr → Except Error Value
  | .ident n => lookup r vertexId n
  | .arrow e member =>
    match eval r vertexId e with
    | .ok (.table p) => readMember r p member
    | .ok _ => .error .illTyped
    | .error err => .error err
  | .subscript e i =>
    match eval r vertexId e with
    | .ok (.pointer p offset) =>
      match eval r vertexId i with
      | .ok (.uint k) => readElement r p offset k
      | .ok _ => .error .illTyped
      | .error err => .error err
    | .ok _ => .error .illTyped
    | .error err => .error err

/-- Lines 54-58: `struct v2f { float4 position [[position]]; half3 color; }`; the position is
kept as its `xyz` part and its `w`. -/
structure v2f where
  position : float3 × ℚ
  color : float3
deriving DecidableEq

/-- Lines 66-73: `vertexMain` for a vertex id: line 70 assigns `o.position`, line 71 assigns
`o.color`. -/
def vertexMain (r : Renderer) (vertexId : Nat) : Except Error v2f :=
  match eval r vertexId positionExpr with
  | .ok (.vector position) =>
    match eval r vertexId colorExpr with
    | .ok (.vector color) => .ok { position := (position, 1.0), color := color }
    | .ok _ => .error .illTyped
    | .error err => .error err
  | .ok _ => .error .illTyped
  | .error err => .error err

end Shader

end ArgBuffers

namespace ArgBuffers

/-! ## Construction of the argument-buffer renderer -/

namespace Shader

/-- The vertex function of a shader source as far as the scope of its identifiers goes: its
parameters and the expressions its body reads. -/
structure Source where
  parameters : List Name
  reads : List Expr
deriving DecidableEq

/-- Lines 50-79 of `buildShaders`: `shaderSrc`.  Its vertex function has the parameters of
lines 66-67 and reads the expressions of lines 70 and 71; the local `o` is only assigned, the
source declares no global, and the fragment function reads nothing but its parameter. -/
def shaderSrc : Source :=
  { parameters := parameters, reads := [positionExpr, colorExpr] }

/-- The scope rule of the shader compiler: a source is accepted only if every identifier its
function reads on its own is declared, which here means it is one of the parameters. -/
def Source.compiles (src : Source) : Bool :=
  src.reads.all (fun e => e.identifiers.all (fun n => decide (n ∈ src.parameters)))

end Shader

namespace Renderer

/-- The assertions that end the construction of the renderer; `assert` is taken as written,
that is, enabled. -/
inductive Abort where
  /-- Line 90: `assert( false )` after `newLibrary` returned null. -/
  | shaderLibrary
  /-- Line 111: `assert( false )` after `newRenderPipelineState` returned null. -/
  | pipelineState
  /-- Line 160: `assert( _pShaderLibrary )`. -/
  | noShaderLibrary
deriving DecidableEq

/-- What the Metal implementation decides for the renderer: whether
`newRenderPipelineState` returns a state for the functions of a compiled library, and the
value of `pArgEncoder->encodedLength()`. -/
structure Metal where
  pipelineState : Bool
  encodedLength : Nat
deriving DecidableEq

/-- A compiled `MTL::Library`: the source it was compiled from. -/
structure Library where
  source : Shader.Source
deriving DecidableEq

/-- The call `_pDevice->newLibrary( shaderSrc, nullptr, &pError )` (lines 83-86): null when
the compiler rejects the source. -/
def newLibrary (src : Shader.Source) : Option Library :=
  if src.compiles then some { source := src } else none

/-- The function `Renderer::buildShaders` (lines 46-118): it compiles `shaderSrc` and asserts
on a null library (lines 87-91), creates the pipeline state from the two functions and asserts
on a null state (lines 106-112), and keeps the library in `_pShaderLibrary` (line 117). -/
def buildShaders (m : Metal) : Except Abort Library :=
  match newLibrary Shader.shaderSrc with
  | none => .error .shaderLibrary
  | some pLibrary =>
    if m.pipelineState then .ok pLibrary else .error .pipelineState

/-- The function `Renderer::buildBuffers` (lines 120-182) on a device `d`, in source order:
the two vertex buffers are allocated, filled and marked modified (lines 122-156), line 160
asserts `_pShaderLibrary`, lines 162-166 take the vertex function of the library and its
argument encoder for buffer index 0, lines 168-177 allocate the argument buffer and encode the
two vertex buffers into it.  It returns the renderer and the argument encoder as it is when
it is released. -/
def buildBuffers (m : Metal) (_pShaderLibrary : Option Library) (d : Device) :
    Except Abort (Renderer × ArgumentEncoder) :=
  let (d, pVertexPositionsBuffer) := newBuffer d positionsDataSize
  let (d, pVertexColorsBuffer) := newBuffer d colorDataSize
  let d := memcpy d pVertexPositionsBuffer positions positionsDataSize
  let d := memcpy d pVertexColorsBuffer colors colorDataSize
  let d := didModifyWhole d pVertexPositionsBuffer
  let d := didModifyWhole d pVertexColorsBuffer
  match _pShaderLibrary with
  | none => .error .noShaderLibrary
  | some _ =>
    let pArgEncoder := newArgumentEncoder m.encodedLength 0
    let (d, pArgBuffer) := newBuffer d pArgEncoder.encodedLength
    let pArgEncoder := pArgEncoder.setArgumentBuffer pArgBuffer 0
    let d := pArgEncoder.setBuffer d pVertexPositionsBuffer 0 0
    let d := pArgEncoder.setBuffer d pVertexColorsBuffer 0 1
    let d := didModifyWhole d pArgBuffer
    .ok ({ device := d
           _pArgBuffer := pArgBuffer
           _pVertexPositionsBuffer := pVertexPositionsBuffer
           _pVertexColorsBuffer := pVertexColorsBuffer }, pArgEncoder)

/-- The constructor `Renderer::Renderer` (lines 27-33): `buildShaders()`, then
`buildBuffers()` with the library `buildShaders` left in `_pShaderLibrary`. -/
def init (m : Metal) (d : Device) : Except Abort Renderer :=
  match buildShaders m with
  | .error a => .error a
  | .ok pLibrary =>
    match buildBuffers m (some pLibrary) d with
    | .error a => .error a
    | .ok (r, _) => .ok r

end Renderer

end ArgBuffers

/-! # Theorems -/

namespace Perspective
namespace Renderer

/-! ## Slot arithmetic -/

theorem advance_ofNat (n : Nat) :
    (((n % 3 : Nat) : Int) + 1).tmod kMaxFramesInFlight = ((n + 1) % 3 : Nat) := by
  have h0 : (0 : Int) ≤ ((n % 3 : Nat) : Int) + 1 := by omega
  rw [kMaxFramesInFlight, Int.tmod_eq_emod h0 (by decide)]
  omega

theorem iterate_advance (n : Nat) :
    (fun f : Int => (f + 1).tmod kMaxFramesInFlight)^[n] 0 = ((n % 3 : Nat) : Int) := by
  induction n with
  | zero => rfl
  | succ n ih => rw [Function.iterate_succ_apply', ih, advance_ofNat]

theorem slot_eq (k : Nat) : slot k = (((k + 1) % 3 : Nat) : Int) :=
  iterate_advance (k + 1)

theorem allocateSlots_eq (size : Nat) :
    allocateSlots size =
      [some (newBuffer size), some (newBuffer size), some (newBuffer size)]
        ++ List.replicate 57 none := by
  rfl

end Renderer
end Perspective

namespace Perspective

theorem BufferArray.at_set_self {a : BufferArray} {x : Int} {b : Buffer} (c : Buffer)
    (h : a.at x = some b) : BufferArray.at (a.set x.toNat (some c)) x = some c := by
  unfold BufferArray.at at h ⊢
  by_cases hx : 0 ≤ x
  · rw [if_pos hx] at h ⊢
    have hlt : x.toNat < a.length := by
      by_contra hge
      rw [List.getElem?_eq_none (Nat.le_of_not_lt hge)] at h
      cases h
    rw [List.getElem?_set_self hlt]
    rfl
  · rw [if_neg hx] at h
    cases h

theorem BufferArray.at_set_ne (a : BufferArray) {x y : Int} (v : Option Buffer)
    (hy : 0 ≤ y) (hne : x ≠ y) : BufferArray.at (a.set y.toNat v) x = a.at x := by
  unfold BufferArray.at
  by_cases hx : 0 ≤ x
  · have hn : y.toNat ≠ x.toNat := by omega
    rw [if_pos hx, if_pos hx, List.getElem?_set_ne hn]
  · rw [if_neg hx, if_neg hx]

namespace Renderer

theorem slot_nonneg (k : Nat) : 0 ≤ slot k := by
  rw [slot_eq]; omega

theorem slot_lt (k : Nat) : slot k < 3 := by
  rw [slot_eq]; omega

/-- The slots of the first `k` calls: slot 0 was used `k / 3` times, slot 1 `(k + 2) / 3`
times and slot 2 `(k + 1) / 3` times. -/
theorem count_slots (k : Nat) :
    ((List.range k).map slot).count 0 = k / 3 ∧
    ((List.range k).map slot).count 1 = (k + 2) / 3 ∧
    ((List.range k).map slot).count 2 = (k + 1) / 3 := by
  induction k with
  | zero => exact ⟨rfl, rfl, rfl⟩
  | succ k ih =>
    obtain ⟨h0, h1, h2⟩ := ih
    have hk : (k + 1) % 3 = 0 ∨ (k + 1) % 3 = 1 ∨ (k + 1) % 3 = 2 := by omega
    rw [List.range_succ, List.map_append, List.count_append, List.count_append,
      List.count_append, h0, h1, h2, List.map_singleton, slot_eq]
    rcases hk with hk | hk | hk <;> rw [hk] <;> simp <;> omega


theorem Allocated.at_slot {size : Nat} {a : BufferArray} (h : Allocated size a) (k : Nat) :
    ∃ b, a.at (slot k) = some b ∧ b.length = size ∧
      ∀ c : Buffer, c.length = size → Allocated size (a.set (slot k).toNat (some c)) := by
  obtain ⟨b0, b1, b2, rfl, h0, h1, h2⟩ := h
  have hk : (k + 1) % 3 = 0 ∨ (k + 1) % 3 = 1 ∨ (k + 1) % 3 = 2 := by omega
  rw [slot_eq]
  rcases hk with hk | hk | hk <;> rw [hk]
  · exact ⟨b0, rfl, h0, fun c hc => ⟨c, b1, b2, rfl, hc, h1, h2⟩⟩
  · exact ⟨b1, rfl, h1, fun c hc => ⟨b0, c, b2, rfl, h0, hc, h2⟩⟩
  · exact ⟨b2, rfl, h2, fun c hc => ⟨b0, b1, c, rfl, h0, h1, hc⟩⟩

theorem Inv.next_frame {s : State} (h : Inv s) :
    (s._frame + 1).tmod kMaxFramesInFlight = slot s.writes.length := by
  rw [h.frame, advance_ofNat, slot_eq]

theorem Counted.write {a : BufferArray} {writes : List Int} {x : Int} {b : Buffer}
    (w : Buffer → Buffer) (hw : ∀ c, (w c).generation = c.generation + 1)
    (h : Counted a writes) (hx : 0 ≤ x) (hb : a.at x = some b) :
    Counted (a.set x.toNat (some (w b))) (writes ++ [x]) := by
  intro y c hc
  by_cases hy : y = x
  · subst hy
    rw [BufferArray.at_set_self _ hb] at hc
    cases hc
    rw [hw, h y b hb, List.count_append]
    simp
  · rw [BufferArray.at_set_ne _ _ hx hy] at hc
    have hnot : y ∉ [x] := by simpa using hy
    rw [h y c hc, List.count_append, List.count_eq_zero.mpr hnot, Nat.add_zero]

theorem counted_allocateSlots (size : Nat) : Counted (allocateSlots size) [] := by
  intro x b hb
  rw [allocateSlots_eq] at hb
  unfold BufferArray.at at hb
  split at hb
  · have h3 : x.toNat = 0 ∨ x.toNat = 1 ∨ x.toNat = 2 ∨ 3 ≤ x.toNat := by omega
    rcases h3 with h3 | h3 | h3 | h3
    · rw [h3] at hb; cases hb; rfl
    · rw [h3] at hb; cases hb; rfl
    · rw [h3] at hb; cases hb; rfl
    · rw [List.getElem?_append_right (by simpa using h3), List.getElem?_replicate] at hb
      split at hb <;> cases hb
  · cases hb

theorem inv_init : Inv init where
  frame := rfl
  capacity := rfl
  writes := rfl
  pending_le := Nat.le_refl _
  pending := rfl
  instanceBuffers := ⟨_, _, _, allocateSlots_eq _, rfl, rfl, rfl⟩
  cameraBuffers := ⟨_, _, _, allocateSlots_eq _, rfl, rfl, rfl⟩
  instanceFills := counted_allocateSlots _
  cameraFills := counted_allocateSlots _

/-- A `draw` call in a state of the invariant with a zero semaphore count blocks. -/
theorem draw_blocked {s : State} (h : Inv s) (h0 : s._semaphore = 0) :
    draw s = .error .blocked := by
  obtain ⟨b, hb, -, -⟩ := h.instanceBuffers.at_slot s.writes.length
  obtain ⟨c, hc, -, -⟩ := h.cameraBuffers.at_slot s.writes.length
  simp only [draw, h.next_frame, hb, hc, h0]

/-- A `draw` call in a state of the invariant with a positive semaphore count runs to its end:
it fills `slot n`, takes one unit of the semaphore and puts the frame in flight. -/
theorem draw_ok {s : State} (h : Inv s) (hpos : 0 < s._semaphore) :
    ∃ t, draw s = .ok t ∧ t._frame = slot s.writes.length ∧
      t.writes = s.writes ++ [slot s.writes.length] ∧
      t.inFlight = s.inFlight ++ [slot s.writes.length] ∧
      t._semaphore + 1 = s._semaphore ∧
      Allocated instanceDataSize t._pInstanceDataBuffer ∧
      Allocated cameraDataSize t._pCameraDataBuffer ∧
      Counted t._pInstanceDataBuffer t.writes ∧
      Counted t._pCameraDataBuffer t.writes ∧
      (∀ x, x ≠ slot s.writes.length →
        t._pInstanceDataBuffer.at x = s._pInstanceDataBuffer.at x ∧
        t._pCameraDataBuffer.at x = s._pCameraDataBuffer.at x) ∧
      t._pInstanceDataBuffer.at (slot s.writes.length)
        = (s._pInstanceDataBuffer.at (slot s.writes.length)).map writeInstanceData ∧
      t._pCameraDataBuffer.at (slot s.writes.length)
        = (s._pCameraDataBuffer.at (slot s.writes.length)).map writeCameraData := by
  obtain ⟨b, hb, hbl, hbs⟩ := h.instanceBuffers.at_slot s.writes.length
  obtain ⟨c, hc, hcl, hcs⟩ := h.cameraBuffers.at_slot s.writes.length
  obtain ⟨n, hn⟩ : ∃ n, s._semaphore = n + 1 := ⟨s._semaphore - 1, by omega⟩
  refine ⟨{ _pInstanceDataBuffer :=
              s._pInstanceDataBuffer.set (slot s.writes.length).toNat (some (writeInstanceData b))
            _pCameraDataBuffer :=
              s._pCameraDataBuffer.set (slot s.writes.length).toNat (some (writeCameraData c))
            _frame := slot s.writes.length
            _semaphore := n
            inFlight := s.inFlight ++ [slot s.writes.length]
            writes := s.writes ++ [slot s.writes.length] }, ?_, rfl, rfl, rfl, hn.symm,
          hbs _ hbl, hcs _ hcl,
          h.instanceFills.write writeInstanceData (fun _ => rfl) (slot_nonneg _) hb,
          h.cameraFills.write writeCameraData (fun _ => rfl) (slot_nonneg _) hc,
          fun x hx => ⟨BufferArray.at_set_ne _ _ (slot_nonneg _) hx,
            BufferArray.at_set_ne _ _ (slot_nonneg _) hx⟩,
          by rw [hb]; exact BufferArray.at_set_self _ hb,
          by rw [hc]; exact BufferArray.at_set_self _ hc⟩
  simp only [draw, h.next_frame, hb, hc, hn]


theorem inv_draw {s t : State} (h : Inv s) (hd : draw s = .ok t) : Inv t := by
  have hpos : 0 < s._semaphore := by
    rcases Nat.eq_zero_or_pos s._semaphore with h0 | h0
    · rw [draw_blocked h h0] at hd; cases hd
    · exact h0
  obtain ⟨u, hu, hf, hw, hp, hs, hi, hc, hgi, hgc, -, -, -⟩ := draw_ok h hpos
  obtain rfl : u = t := by rw [hu] at hd; cases hd; rfl
  have hcap := h.capacity
  have hle := h.pending_le
  have hwl : u.writes.length = s.writes.length + 1 := by rw [hw]; simp
  have hpl : u.inFlight.length = s.inFlight.length + 1 := by rw [hp]; simp
  refine ⟨?_, ?_, ?_, ?_, ?_, hi, hc, hgi, hgc⟩
  · rw [hf, slot_eq, hwl]
  · omega
  · rw [hwl, List.range_succ, List.map_append, ← h.writes, hw]; rfl
  · omega
  · have hidx : s.writes.length + 1 - (s.inFlight.length + 1)
        = s.writes.length - s.inFlight.length := by omega
    have hsum : s.writes.length - s.inFlight.length + s.inFlight.length
        = s.writes.length := by omega
    rw [hwl, hpl, hidx, List.range'_1_concat, List.map_append, ← h.pending, hsum, hp]; rfl

theorem inv_complete {s t : State} (h : Inv s) (hc : complete s = some t) : Inv t := by
  have hcap := h.capacity
  have hle := h.pending_le
  have hpend := h.pending
  unfold complete at hc
  cases hfl : s.inFlight with
  | nil => rw [hfl] at hc; cases hc
  | cons a rest =>
    rw [hfl] at hc hpend
    simp only [Option.some.injEq] at hc
    subst hc
    rw [hfl] at hcap hle
    simp only [List.length_cons] at hcap hle hpend
    refine ⟨h.frame, ?_, h.writes, ?_, ?_, h.instanceBuffers, h.cameraBuffers,
      h.instanceFills, h.cameraFills⟩
    · show s._semaphore + 1 + rest.length = 3
      omega
    · show rest.length ≤ s.writes.length
      omega
    · show rest = (List.range' (s.writes.length - rest.length) rest.length).map slot
      rw [List.range'_succ, List.map_cons, List.cons.injEq] at hpend
      have hidx : s.writes.length - (rest.length + 1) + 1
          = s.writes.length - rest.length := by omega
      rw [← hidx]
      exact hpend.2

theorem inv_step {s t : State} (h : Inv s) (e : Event) (hs : step s e = some t) : Inv t := by
  cases e with
  | draw =>
    cases hd : draw s with
    | error x => simp [step, hd, Except.toOption] at hs
    | ok u =>
      simp only [step, hd, Except.toOption, Option.some.injEq] at hs
      exact hs ▸ inv_draw h hd
  | complete => exact inv_complete h hs

theorem inv_run (es : List Event) {s t : State} (h : Inv s) (hr : run s es = some t) :
    Inv t := by
  induction es generalizing s with
  | nil =>
    simp only [run, Option.some.injEq] at hr
    exact hr ▸ h
  | cons e es ih =>
    cases hs : step s e with
    | none => simp [run, hs] at hr
    | some u =>
      simp only [run, hs, Option.some_bind] at hr
      exact ih (inv_step h e hs) hr

theorem inv_reachable {s : State} (h : Reachable s) : Inv s := by
  obtain ⟨es, hes⟩ := h
  exact inv_run es inv_init hes


/-- What a `draw` call that runs to its end does, in a state of the invariant. -/
theorem draw_spec {s t : State} (h : Inv s) (hd : draw s = .ok t) :
    0 < s._semaphore ∧ t._frame = slot s.writes.length ∧
      t.writes = s.writes ++ [slot s.writes.length] ∧
      t.inFlight = s.inFlight ++ [slot s.writes.length] ∧
      t._semaphore + 1 = s._semaphore ∧
      (∀ x, x ≠ slot s.writes.length →
        t._pInstanceDataBuffer.at x = s._pInstanceDataBuffer.at x ∧
        t._pCameraDataBuffer.at x = s._pCameraDataBuffer.at x) ∧
      t._pInstanceDataBuffer.at (slot s.writes.length)
        = (s._pInstanceDataBuffer.at (slot s.writes.length)).map writeInstanceData ∧
      t._pCameraDataBuffer.at (slot s.writes.length)
        = (s._pCameraDataBuffer.at (slot s.writes.length)).map writeCameraData := by
  have hpos : 0 < s._semaphore := by
    rcases Nat.eq_zero_or_pos s._semaphore with h0 | h0
    · rw [draw_blocked h h0] at hd; cases hd
    · exact h0
  obtain ⟨u, hu, hf, hw, hp, hs, -, -, -, -, hx, hwi, hwc⟩ := draw_ok h hpos
  obtain rfl : u = t := by rw [hu] at hd; cases hd; rfl
  exact ⟨hpos, hf, hw, hp, hs, hx, hwi, hwc⟩

/-- The frames in flight are among the last `3 - _semaphore` calls. -/
theorem Inv.mem_inFlight {s : State} (h : Inv s) {x : Int} (hx : x ∈ s.inFlight) :
    ∃ j, s.writes.length ≤ j + s.inFlight.length ∧ j < s.writes.length ∧ x = slot j := by
  have hle := h.pending_le
  rw [h.pending, List.mem_map] at hx
  obtain ⟨j, hj, rfl⟩ := hx
  rw [List.mem_range'_1] at hj
  exact ⟨j, by omega, by omega, rfl⟩

/-- Every successful step appends to the log exactly when it is a `draw`. -/
theorem step_writes_length {s t : State} (e : Event) (hs : step s e = some t) :
    t.writes.length = s.writes.length + [e].count .draw := by
  cases e with
  | draw =>
    simp only [step, draw] at hs
    split at hs
    · cases hs
    · split at hs
      · cases hs
      · split at hs
        · cases hs
        · simp only [Except.toOption, Option.some.injEq] at hs
          subst hs
          simp
  | complete =>
    simp only [step, complete] at hs
    split at hs
    · cases hs
    · simp only [Option.some.injEq] at hs
      subst hs
      simp

theorem run_writes_length (es : List Event) {s t : State} (hr : run s es = some t) :
    t.writes.length = s.writes.length + es.count .draw := by
  induction es generalizing s with
  | nil =>
    simp only [run, Option.some.injEq] at hr
    subst hr
    simp
  | cons e es ih =>
    cases hs : step s e with
    | none => simp [run, hs] at hr
    | some u =>
      simp only [run, hs, Option.some_bind] at hr
      have h1 := step_writes_length e hs
      have h2 := ih hr
      have h3 : (e :: es).count .draw = [e].count .draw + es.count .draw := by
        rw [← List.count_append]; rfl
      omega

theorem run_draws_blocked {s : State} (h : Inv s) (k : Nat) (hk : s._semaphore < k) :
    run s (List.replicate k .draw) = none := by
  induction k generalizing s with
  | zero => omega
  | succ k ih =>
    rcases Nat.eq_zero_or_pos s._semaphore with h0 | h0
    · simp [List.replicate, run, step, draw_blocked h h0, Except.toOption]
    · obtain ⟨t, ht, -, -, -, hsem, -⟩ := draw_ok h h0
      have hk2 : t._semaphore < k := by omega
      simp only [List.replicate, run, step, ht, Except.toOption, Option.some_bind]
      exact ih (inv_draw h ht) hk2


/-! ## Claims on frame slots and pacing -/

/-- C1: in every reachable state, a `draw` step runs only with a positive semaphore count; it
fills the instance and camera buffers of one slot, the new value of `_frame`, and puts that
frame in flight; this slot differs from the slot of every frame still in flight, whose
instance and camera buffers the step leaves as they were. -/
theorem draw_spares_frames_in_flight (s t : State) (hs : Reachable s)
    (hd : draw s = .ok t) :
    0 < s._semaphore ∧ t.writes = s.writes ++ [t._frame] ∧
      t.inFlight = s.inFlight ++ [t._frame] ∧
      t._pInstanceDataBuffer.at t._frame
        = (s._pInstanceDataBuffer.at t._frame).map writeInstanceData ∧
      t._pCameraDataBuffer.at t._frame
        = (s._pCameraDataBuffer.at t._frame).map writeCameraData ∧
      ∀ x ∈ s.inFlight, x ≠ t._frame ∧
        t._pInstanceDataBuffer.at x = s._pInstanceDataBuffer.at x ∧
        t._pCameraDataBuffer.at x = s._pCameraDataBuffer.at x := by
  have h := inv_reachable hs
  obtain ⟨hpos, hf, hw, hp, -, hx, hwi, hwc⟩ := draw_spec h hd
  have hcap := h.capacity
  refine ⟨hpos, hf ▸ hw, hf ▸ hp, hf ▸ hwi, hf ▸ hwc, ?_⟩
  intro x hmem
  obtain ⟨j, hj1, hj2, rfl⟩ := h.mem_inFlight hmem
  have hne : slot j ≠ slot s.writes.length := by
    rw [slot_eq, slot_eq]
    omega
  exact ⟨hf ▸ hne, hx _ hne⟩

/-- C1 at the state after two calls: frames of slots 1 and 2 are in flight, the third call
fills slot 0. -/
theorem draw_spares_frames_in_flight_witness :
    Reachable (stateAfter [.draw, .draw]) ∧
      draw (stateAfter [.draw, .draw]) = .ok (stateAfter [.draw, .draw, .draw]) ∧
      (stateAfter [.draw, .draw]).inFlight = [1, 2] ∧
      (stateAfter [.draw, .draw, .draw])._frame = 0 ∧
      ∀ x ∈ (stateAfter [.draw, .draw]).inFlight,
        x ≠ (stateAfter [.draw, .draw, .draw])._frame ∧
        (stateAfter [.draw, .draw, .draw])._pInstanceDataBuffer.at x
          = (stateAfter [.draw, .draw])._pInstanceDataBuffer.at x ∧
        (stateAfter [.draw, .draw, .draw])._pCameraDataBuffer.at x
          = (stateAfter [.draw, .draw])._pCameraDataBuffer.at x :=
  ⟨⟨[.draw, .draw], rfl⟩, rfl, rfl, rfl,
    (draw_spares_frames_in_flight (stateAfter [.draw, .draw])
      (stateAfter [.draw, .draw, .draw]) ⟨[.draw, .draw], rfl⟩ rfl).2.2.2.2.2⟩

/-- C2: the semaphore starts at 3; in every reachable state the semaphore count and the number
of frames in flight add up to 3, so neither exceeds 3; a `draw` takes exactly one unit and puts
one frame in flight, a completion gives one unit back; `draw` blocks at count 0 and runs at a
positive count; more consecutive `draw` calls than the count cannot all run, and from a blocked
state one completion enables the next `draw`. -/
theorem pacer_is_counting_semaphore (s : State) (hs : Reachable s) :
    init._semaphore = 3 ∧
      s._semaphore + s.inFlight.length = 3 ∧ s._semaphore ≤ 3 ∧ s.inFlight.length ≤ 3 ∧
      (∀ t, draw s = .ok t →
        t._semaphore + 1 = s._semaphore ∧ t.inFlight.length = s.inFlight.length + 1) ∧
      (∀ t, complete s = some t →
        t._semaphore = s._semaphore + 1 ∧ t.inFlight.length + 1 = s.inFlight.length) ∧
      (s._semaphore = 0 → draw s = .error .blocked) ∧
      (0 < s._semaphore → ∃ t, draw s = .ok t) ∧
      (∀ k, s._semaphore < k → run s (List.replicate k .draw) = none) ∧
      (s._semaphore = 0 → ∃ u t, complete s = some u ∧ draw u = .ok t) := by
  have h := inv_reachable hs
  have hcap := h.capacity
  refine ⟨rfl, hcap, by omega, by omega, ?_, ?_, draw_blocked h, ?_, run_draws_blocked h, ?_⟩
  · intro t ht
    obtain ⟨-, -, -, hp, hsem, -⟩ := draw_spec h ht
    exact ⟨hsem, by rw [hp]; simp⟩
  · intro t ht
    unfold complete at ht
    split at ht
    · cases ht
    · rename_i a rest hfl
      simp only [Option.some.injEq] at ht
      subst ht
      exact ⟨rfl, by rw [hfl]; rfl⟩
  · intro hpos
    obtain ⟨t, ht, -⟩ := draw_ok h hpos
    exact ⟨t, ht⟩
  · intro h0
    cases hfl : s.inFlight with
    | nil => rw [hfl] at hcap; simp at hcap; omega
    | cons a rest =>
      have hc : complete s = some { s with inFlight := rest, _semaphore := s._semaphore + 1 } := by
        simp only [complete, hfl]
      obtain ⟨t, ht, -⟩ := draw_ok (inv_complete h hc) (Nat.succ_pos _)
      exact ⟨_, t, hc, ht⟩

/-- C2 at the state after three calls with no completion: the count is 0, three frames are in
flight, the fourth call blocks. -/
theorem pacer_is_counting_semaphore_witness :
    Reachable (stateAfter [.draw, .draw, .draw]) ∧
      (stateAfter [.draw, .draw, .draw])._semaphore = 0 ∧
      (stateAfter [.draw, .draw, .draw]).inFlight.length = 3 ∧
      draw (stateAfter [.draw, .draw, .draw]) = .error .blocked ∧
      run init (List.replicate 4 .draw) = none :=
  ⟨⟨[.draw, .draw, .draw], rfl⟩, rfl, rfl,
    (pacer_is_counting_semaphore (stateAfter [.draw, .draw, .draw])
      ⟨[.draw, .draw, .draw], rfl⟩).2.2.2.2.2.2.1 rfl,
    rfl⟩

end Renderer
end Perspective

namespace Perspective

theorem BufferArray.at_natCast (a : BufferArray) (i : Nat) :
    BufferArray.at a (i : Int) = a[i]?.join := by
  simp [BufferArray.at]

namespace Renderer

theorem Allocated.length_eq {size : Nat} {a : BufferArray} (h : Allocated size a) :
    a.length = Perspective.kMaxFramesInFlight := by
  obtain ⟨b0, b1, b2, rfl, -⟩ := h
  rfl

theorem Allocated.at_unallocated {size : Nat} {a : BufferArray} (h : Allocated size a)
    (i : Nat) (hi : 3 ≤ i) : BufferArray.at a (i : Int) = none := by
  obtain ⟨b0, b1, b2, rfl, -⟩ := h
  rw [BufferArray.at_natCast, List.getElem?_append_right (by simpa using hi),
    List.getElem?_replicate]
  split <;> rfl

theorem Allocated.at_allocated {size : Nat} {a : BufferArray} (h : Allocated size a)
    (i : Nat) (hi : i < 3) : ∃ b, BufferArray.at a (i : Int) = some b ∧ b.length = size := by
  obtain ⟨b0, b1, b2, rfl, h0, h1, h2⟩ := h
  rw [BufferArray.at_natCast]
  have h3 : i = 0 ∨ i = 1 ∨ i = 2 := by omega
  rcases h3 with rfl | rfl | rfl
  · exact ⟨b0, rfl, h0⟩
  · exact ⟨b1, rfl, h1⟩
  · exact ⟨b2, rfl, h2⟩

/-- C3, as stated, fails at the first call after construction: the counter holds 0 before the
call, and the call fills slot 1, not slot 0. -/
theorem first_draw_fills_slot_one :
    init._frame = 0 ∧ draw init = .ok (stateAfter [.draw]) ∧
      (stateAfter [.draw]).writes = [1] ∧
      (stateAfter [.draw]).writes ≠ init.writes ++ [init._frame] ∧
      (stateAfter [.draw]).writes ≠ [((0 % 3 : Nat) : Int)] :=
  ⟨rfl, rfl, rfl, by decide, by decide⟩

/-- C3, amended: slot selection is advance-then-select.  A `draw` call first advances the
counter to `(_frame + 1) % 3` and fills the slot equal to the advanced value; after `k` earlier
calls (the counter starting at 0) it fills slot `(k + 1) mod 3`, and the first call fills
slot 1. -/
theorem draw_advances_then_selects (es : List Event) (s t : State)
    (hr : run init es = some s) (hd : draw s = .ok t) :
    t._frame = (s._frame + 1).tmod kMaxFramesInFlight ∧
      t.writes = s.writes ++ [t._frame] ∧
      t._frame = slot (es.count .draw) ∧
      t._frame = (((es.count .draw + 1) % 3 : Nat) : Int) ∧
      slot 0 = 1 := by
  have h := inv_run es inv_init hr
  obtain ⟨-, hf, hw, -⟩ := draw_spec h hd
  have hlen : s.writes.length = es.count .draw := by
    have := run_writes_length es hr
    simpa [init] using this
  rw [hlen] at hf hw
  refine ⟨?_, hf ▸ hw, hf, hf.trans (slot_eq _), rfl⟩
  rw [h.next_frame, hlen, hf]

/-- C3, amended, at the fifth call (four calls and two completions earlier): slot 2. -/
theorem draw_advances_then_selects_witness :
    run init [.draw, .draw, .draw, .complete, .draw, .complete]
        = some (stateAfter [.draw, .draw, .draw, .complete, .draw, .complete]) ∧
      draw (stateAfter [.draw, .draw, .draw, .complete, .draw, .complete])
        = .ok (stateAfter [.draw, .draw, .draw, .complete, .draw, .complete, .draw]) ∧
      (stateAfter [.draw, .draw, .draw, .complete, .draw, .complete, .draw])._frame
        = (((4 + 1) % 3 : Nat) : Int) :=
  ⟨rfl, rfl,
    (draw_advances_then_selects [.draw, .draw, .draw, .complete, .draw, .complete]
      (stateAfter [.draw, .draw, .draw, .complete, .draw, .complete])
      (stateAfter [.draw, .draw, .draw, .complete, .draw, .complete, .draw])
      rfl rfl).2.2.2.1⟩

/-- C4: in every reachable state `_frame` lies in `[0, 3)`; a `draw` call never indexes an
entry without a buffer: the index it uses lies in `[0, 3)` and designates a buffer in both
arrays, while the entries from 3 up to the declared bound 60 of either array hold none. -/
theorem frame_designates_allocated_buffer (s : State) (hs : Reachable s) :
    (0 ≤ s._frame ∧ s._frame < kMaxFramesInFlight) ∧
      draw s ≠ .error .fault ∧
      (∀ t, draw s = .ok t →
        0 ≤ t._frame ∧ t._frame < kMaxFramesInFlight ∧
        (∃ b, s._pInstanceDataBuffer.at t._frame = some b) ∧
        (∃ c, s._pCameraDataBuffer.at t._frame = some c)) ∧
      s._pInstanceDataBuffer.length = Perspective.kMaxFramesInFlight ∧
      s._pCameraDataBuffer.length = Perspective.kMaxFramesInFlight ∧
      Perspective.kMaxFramesInFlight = 60 ∧
      (∀ i : Nat, i < 3 →
        (∃ b, s._pInstanceDataBuffer.at (i : Int) = some b) ∧
        (∃ c, s._pCameraDataBuffer.at (i : Int) = some c)) ∧
      (∀ i : Nat, 3 ≤ i →
        s._pInstanceDataBuffer.at (i : Int) = none ∧
        s._pCameraDataBuffer.at (i : Int) = none) := by
  have h := inv_reachable hs
  refine ⟨?_, ?_, ?_, h.instanceBuffers.length_eq, h.cameraBuffers.length_eq, rfl, ?_, ?_⟩
  · rw [h.frame, kMaxFramesInFlight]; omega
  · rcases Nat.eq_zero_or_pos s._semaphore with h0 | h0
    · rw [draw_blocked h h0]; exact fun e => by cases e
    · obtain ⟨t, ht, -⟩ := draw_ok h h0
      rw [ht]; exact fun e => by cases e
  · intro t ht
    obtain ⟨-, hf, -⟩ := draw_spec h ht
    obtain ⟨b, hb, -⟩ := h.instanceBuffers.at_slot s.writes.length
    obtain ⟨c, hc, -⟩ := h.cameraBuffers.at_slot s.writes.length
    rw [hf]
    exact ⟨slot_nonneg _, slot_lt _, ⟨b, hb⟩, ⟨c, hc⟩⟩
  · intro i hi
    obtain ⟨b, hb, -⟩ := h.instanceBuffers.at_allocated i hi
    obtain ⟨c, hc, -⟩ := h.cameraBuffers.at_allocated i hi
    exact ⟨⟨b, hb⟩, ⟨c, hc⟩⟩
  · intro i hi
    exact ⟨h.instanceBuffers.at_unallocated i hi, h.cameraBuffers.at_unallocated i hi⟩

/-- C4 at the state after three calls and one completion. -/
theorem frame_designates_allocated_buffer_witness :
    Reachable (stateAfter [.draw, .draw, .draw, .complete]) ∧
      (0 ≤ (stateAfter [.draw, .draw, .draw, .complete])._frame ∧
        (stateAfter [.draw, .draw, .draw, .complete])._frame < kMaxFramesInFlight) ∧
      draw (stateAfter [.draw, .draw, .draw, .complete]) ≠ .error .fault :=
  ⟨⟨[.draw, .draw, .draw, .complete], rfl⟩,
    (frame_designates_allocated_buffer (stateAfter [.draw, .draw, .draw, .complete])
      ⟨[.draw, .draw, .draw, .complete], rfl⟩).1,
    (frame_designates_allocated_buffer (stateAfter [.draw, .draw, .draw, .complete])
      ⟨[.draw, .draw, .draw, .complete], rfl⟩).2.1⟩


/-- C5: slot cycling has period 3: `slot (k + 3) = slot k`, the slots of three consecutive
calls are pairwise distinct, and `slot k` is the slot the `k`-th call filled in every reachable
state that has seen more than `k` calls. -/
theorem slot_cycle_period_three (k : Nat) :
    slot (k + kMaxFramesInFlight.toNat) = slot k ∧
      (slot k ≠ slot (k + 1) ∧ slot k ≠ slot (k + 2) ∧ slot (k + 1) ≠ slot (k + 2)) ∧
      ∀ s, Reachable s → s.writes[k]? = some (slot k) ∨ s.writes.length ≤ k := by
  have h3 : kMaxFramesInFlight.toNat = 3 := rfl
  refine ⟨?_, ⟨?_, ?_, ?_⟩, ?_⟩
  · rw [h3, slot_eq, slot_eq]; omega
  · rw [slot_eq, slot_eq]; omega
  · rw [slot_eq, slot_eq]; omega
  · rw [slot_eq, slot_eq]; omega
  · intro s hs
    have h := inv_reachable hs
    rcases Nat.lt_or_ge k s.writes.length with hk | hk
    · left
      rw [h.writes, List.getElem?_map, List.getElem?_range (by simpa using hk)]
      rfl
    · exact Or.inr hk

/-- C6: after a run from the fresh renderer with `k` `draw` calls, the log holds exactly `k`
fills, every slot was filled `k / 3` (floor) or `(k + 2) / 3` (ceiling) times, its instance
buffer counts that many generations, and the three counts add up to `k`; for `k = 10` every
slot was filled 3 or 4 times. -/
theorem fills_spread_over_slots (es : List Event) (s : State)
    (hr : run init es = some s) :
    s.writes.length = es.count .draw ∧
      (∀ x : Int, 0 ≤ x → x < 3 →
        (s.writes.count x = es.count .draw / 3 ∨ s.writes.count x = (es.count .draw + 2) / 3) ∧
        ∃ b, s._pInstanceDataBuffer.at x = some b ∧ b.generation = s.writes.count x) ∧
      s.writes.count 0 + s.writes.count 1 + s.writes.count 2 = es.count .draw ∧
      (es.count .draw = 10 →
        ∀ x : Int, 0 ≤ x → x < 3 → s.writes.count x = 3 ∨ s.writes.count x = 4) := by
  have h := inv_run es inv_init hr
  have hlen : s.writes.length = es.count .draw := by
    have := run_writes_length es hr
    simpa [init] using this
  obtain ⟨c0, c1, c2⟩ := count_slots s.writes.length
  rw [← h.writes, hlen] at c0 c1 c2
  have hcases : ∀ x : Int, 0 ≤ x → x < 3 → x = 0 ∨ x = 1 ∨ x = 2 := by
    intro x h0 h3; omega
  refine ⟨hlen, ?_, by omega, ?_⟩
  · intro x h0 h3
    constructor
    · rcases hcases x h0 h3 with rfl | rfl | rfl <;> omega
    · obtain ⟨b, hb, -⟩ := h.instanceBuffers.at_allocated x.toNat (by omega)
      rw [Int.toNat_of_nonneg h0] at hb
      exact ⟨b, hb, h.instanceFills x b hb⟩
  · intro h10 x h0 h3
    rcases hcases x h0 h3 with rfl | rfl | rfl <;> omega

/-- C6 on the run `tenFrames` of ten calls: slot 1 was filled 4 times, slots 0 and 2 were
filled 3 times. -/
theorem fills_spread_over_slots_witness :
    run init tenFrames = some (stateAfter tenFrames) ∧
      tenFrames.count .draw = 10 ∧
      (stateAfter tenFrames).writes.length = 10 ∧
      (stateAfter tenFrames).writes = [1, 2, 0, 1, 2, 0, 1, 2, 0, 1] ∧
      ∀ x : Int, 0 ≤ x → x < 3 →
        (stateAfter tenFrames).writes.count x = 3 ∨ (stateAfter tenFrames).writes.count x = 4 :=
  ⟨rfl, rfl, (fills_spread_over_slots tenFrames (stateAfter tenFrames) rfl).1, rfl,
    (fills_spread_over_slots tenFrames (stateAfter tenFrames) rfl).2.2.2 rfl⟩

/-- C7, as stated, fails on the buffers `buildBuffers` allocates: the instance buffer of
slot 0 is 122880 bytes long, not 512 * 80 = 40960, and the camera buffer of slot 0 is 384 bytes
long, not 128. -/
theorem slot_buffers_not_one_record_set :
    (buildBuffers.1.at 0).map Buffer.length = some 122880 ∧
      (buildBuffers.2.at 0).map Buffer.length = some 384 ∧
      kNumInstances * shader_types.sizeofInstanceData = 512 * 80 ∧
      shader_types.sizeofCameraData = 128 ∧
      (buildBuffers.1.at 0).map Buffer.length
        ≠ some (kNumInstances * shader_types.sizeofInstanceData) ∧
      (buildBuffers.2.at 0).map Buffer.length ≠ some shader_types.sizeofCameraData := by
  decide

/-- C7, amended: every per-slot instance buffer `buildBuffers` allocates has size
`kMaxFramesInFlight * kNumInstances * sizeof( InstanceData )` = 3 * 512 * 80 bytes and every
per-slot camera buffer has size `kMaxFramesInFlight * sizeof( CameraData )` = 3 * 128 bytes,
with the class constant 3 for `kMaxFramesInFlight`: three times the records one frame
writes. -/
theorem slot_buffer_sizes (i : Fin 3) :
    buildBuffers.1.at (i.val : Int) = some (newBuffer (3 * 512 * 80)) ∧
      buildBuffers.2.at (i.val : Int) = some (newBuffer (3 * 128)) ∧
      instanceDataSize = kMaxFramesInFlight.toNat * (kNumInstances * shader_types.sizeofInstanceData) ∧
      cameraDataSize = kMaxFramesInFlight.toNat * shader_types.sizeofCameraData ∧
      shader_types.sizeofInstanceData = 80 ∧ shader_types.sizeofCameraData = 128 := by
  fin_cases i <;> decide

end Renderer
end Perspective

namespace ArgBuffers

theorem modify_append_right {α : Type} (f : α → α) (d l : List α) (k : Nat) :
    List.modify f (d.length + k) (d ++ l) = d ++ List.modify f k l := by
  induction d with
  | nil => simp
  | cons a d ih => simp [Nat.succ_add, ih]

theorem modify_append_length {α : Type} (f : α → α) (d l : List α) :
    List.modify f d.length (d ++ l) = d ++ List.modify f 0 l :=
  modify_append_right f d l 0

theorem getElem?_append_length_add {α : Type} (d l : List α) (k : Nat) :
    (d ++ l)[d.length + k]? = l[k]? := by
  rw [List.getElem?_append_right (Nat.le_add_right _ _), Nat.add_sub_cancel_left]

theorem getElem?_append_three {α : Type} (d : List α) (a b c : α) :
    (d ++ [a, b, c])[d.length]? = some a ∧ (d ++ [a, b, c])[d.length + 1]? = some b ∧
      (d ++ [a, b, c])[d.length + 2]? = some c :=
  ⟨getElem?_append_length_add d [a, b, c] 0, getElem?_append_length_add d [a, b, c] 1,
    getElem?_append_length_add d [a, b, c] 2⟩

namespace Renderer

/-- The run of `buildBuffers` with a library: it adds the positions buffer, the colors buffer
and the table to the device. -/
theorem buildBuffers_eq (m : Metal) (lib : Library) (d : Device) :
    buildBuffers m (some lib) d = .ok
      ({ device := d ++
          [ { length := 48, contents := positions, arguments := [],
              modified := some ⟨0, 48⟩ },
            { length := 48, contents := colors, arguments := [],
              modified := some ⟨0, 48⟩ },
            { length := m.encodedLength, contents := [],
              arguments := [⟨1, d.length + 1, 0⟩, ⟨0, d.length, 0⟩],
              modified := some ⟨0, m.encodedLength⟩ } ]
         _pArgBuffer := d.length + 2
         _pVertexPositionsBuffer := d.length
         _pVertexColorsBuffer := d.length + 1 },
       { bufferIndex := 0, encodedLength := m.encodedLength,
         argumentBuffer := some (d.length + 2, 0) }) := by
  simp [buildBuffers, newBuffer, memcpy, didModifyWhole, ArgumentEncoder.setBuffer,
    ArgumentEncoder.setArgumentBuffer, newArgumentEncoder, modify_append_right,
    modify_append_length, positionsDataSize, colorDataSize, NumVertices, sizeofFloat3,
    positions, colors]

end Renderer
end ArgBuffers

namespace ArgBuffers
namespace Renderer

/-! ## Claims on the argument table -/

end Renderer
end ArgBuffers

namespace Perspective
namespace Renderer

variable {R : Type} [Field R]

/-! ## Affine matrices and their linear part -/

theorem upperLeft_mul (a b : float4x4 R) (hb : IsAffine b) :
    upperLeft (a * b) = upperLeft a * upperLeft b := by
  obtain ⟨h0, h1, h2, -⟩ := hb
  have c2 : (Fin.castSucc (2 : Fin 3) : Fin 4) = 2 := rfl
  ext i j
  fin_cases j <;>
    simp [upperLeft, Matrix.mul_apply, Fin.sum_univ_four, Fin.sum_univ_three, c2, h0, h1, h2]

theorem isAffine_mul {a b : float4x4 R} (ha : IsAffine a) (hb : IsAffine b) :
    IsAffine (a * b) := by
  obtain ⟨a0, a1, a2, a3⟩ := ha
  obtain ⟨b0, b1, b2, b3⟩ := hb
  refine ⟨?_, ?_, ?_, ?_⟩ <;>
    simp [Matrix.mul_apply, Fin.sum_univ_four, a0, a1, a2, a3, b0, b1, b2, b3]

theorem isAffine_makeTranslate (v : float3 R) : IsAffine (math.makeTranslate v) :=
  ⟨rfl, rfl, rfl, rfl⟩

theorem isAffine_makeYRotate (t : Trig R) (a : R) : IsAffine (math.makeYRotate t a) :=
  ⟨rfl, rfl, rfl, rfl⟩

theorem isAffine_makeZRotate (t : Trig R) (a : R) : IsAffine (math.makeZRotate t a) :=
  ⟨rfl, rfl, rfl, rfl⟩

theorem isAffine_makeScale (v : float3 R) : IsAffine (math.makeScale v) :=
  ⟨rfl, rfl, rfl, rfl⟩

theorem upperLeft_makeTranslate (v : float3 R) : upperLeft (math.makeTranslate v) = 1 := by
  ext i j
  fin_cases i <;> fin_cases j <;> rfl

theorem upperLeft_makeScale (s : R) :
    upperLeft (math.makeScale (⟨s, s, s⟩ : float3 R)) = s • (1 : Matrix (Fin 3) (Fin 3) R) := by
  ext i j
  fin_cases i <;> fin_cases j <;> simp [upperLeft, math.makeScale] <;> rfl

theorem upperLeft_makeYRotate (t : Trig R) (a : R) :
    upperLeft (math.makeYRotate t a) =
      !![t.cos a, 0, t.sin a;
         0, 1, 0;
         -t.sin a, 0, t.cos a] := by
  ext i j
  fin_cases i <;> fin_cases j <;> rfl

theorem upperLeft_makeZRotate (t : Trig R) (a : R) :
    upperLeft (math.makeZRotate t a) =
      !![t.cos a, t.sin a, 0;
         -t.sin a, t.cos a, 0;
         0, 0, 1] := by
  ext i j
  fin_cases i <;> fin_cases j <;> rfl

theorem gram_makeYRotate (t : Trig R) (a : R) (h : t.cos a ^ 2 + t.sin a ^ 2 = 1) :
    (upperLeft (math.makeYRotate t a)).transpose * upperLeft (math.makeYRotate t a) = 1 := by
  ext i j
  simp only [Matrix.mul_apply, Matrix.transpose_apply, Fin.sum_univ_three,
    upperLeft_makeYRotate]
  fin_cases i <;> fin_cases j <;> simp <;> first | ring1 | linear_combination h

theorem gram_makeZRotate (t : Trig R) (a : R) (h : t.cos a ^ 2 + t.sin a ^ 2 = 1) :
    (upperLeft (math.makeZRotate t a)).transpose * upperLeft (math.makeZRotate t a) = 1 := by
  ext i j
  simp only [Matrix.mul_apply, Matrix.transpose_apply, Fin.sum_univ_three,
    upperLeft_makeZRotate]
  fin_cases i <;> fin_cases j <;> simp <;> first | ring1 | linear_combination h

theorem gram_mul {a b : Matrix (Fin 3) (Fin 3) R} (ha : a.transpose * a = 1)
    (hb : b.transpose * b = 1) : (a * b).transpose * (a * b) = 1 := by
  rw [Matrix.transpose_mul, Matrix.mul_assoc, ← Matrix.mul_assoc a.transpose, ha,
    Matrix.one_mul, hb]

theorem isAffine_fullObjectRot (t : Trig R) (angle : R) :
    IsAffine (fullObjectRot t angle) :=
  isAffine_mul (isAffine_mul (isAffine_makeTranslate _) (isAffine_makeYRotate _ _))
    (isAffine_makeTranslate _)

theorem upperLeft_fullObjectRot (t : Trig R) (angle : R) :
    upperLeft (fullObjectRot t angle) = upperLeft (math.makeYRotate t (-angle)) := by
  simp only [fullObjectRot]
  rw [upperLeft_mul _ _ (isAffine_makeTranslate _), upperLeft_mul _ _ (isAffine_makeYRotate _ _),
    upperLeft_makeTranslate, upperLeft_makeTranslate, Matrix.one_mul, Matrix.mul_one]

/-- The last row of the instance transform. -/
theorem isAffine_instanceTransform (t : Trig R) (angle : R) (i : Nat) :
    IsAffine (instanceTransform t angle i) :=
  isAffine_mul (isAffine_mul (isAffine_mul (isAffine_mul (isAffine_fullObjectRot t angle)
    (isAffine_makeTranslate _)) (isAffine_makeYRotate _ _)) (isAffine_makeZRotate _ _))
    (isAffine_makeScale _)

/-- The linear part of the instance transform: three rotations, then the uniform scale. -/
theorem upperLeft_instanceTransform (t : Trig R) (angle : R) (i : Nat) :
    upperLeft (instanceTransform t angle i) =
      (upperLeft (math.makeYRotate t (-angle)) * upperLeft (math.makeYRotate t angle) *
        upperLeft (math.makeZRotate t angle)) * (scl : R) • (1 : Matrix (Fin 3) (Fin 3) R) := by
  simp only [instanceTransform]
  rw [upperLeft_mul _ _ (isAffine_makeScale _), upperLeft_mul _ _ (isAffine_makeZRotate _ _),
    upperLeft_mul _ _ (isAffine_makeYRotate _ _), upperLeft_mul _ _ (isAffine_makeTranslate _),
    upperLeft_fullObjectRot, upperLeft_makeTranslate, upperLeft_makeScale, Matrix.mul_one]

/-- The Gram matrix of the linear part of the instance transform is `scl ^ 2` times the
identity. -/
theorem gram_instanceTransform (t : Trig R) (h : ∀ a, t.cos a ^ 2 + t.sin a ^ 2 = 1)
    (angle : R) (i : Nat) :
    (upperLeft (instanceTransform t angle i)).transpose * upperLeft (instanceTransform t angle i)
      = ((scl : R) ^ 2) • (1 : Matrix (Fin 3) (Fin 3) R) := by
  have hq := gram_mul (gram_mul (gram_makeYRotate t (-angle) (h _))
    (gram_makeYRotate t angle (h _))) (gram_makeZRotate t angle (h _))
  rw [upperLeft_instanceTransform, Matrix.mul_smul, Matrix.mul_one, Matrix.transpose_smul,
    Matrix.smul_mul, Matrix.mul_smul, hq, smul_smul, pow_two]


/-! ## Claim on the instance transform -/

/-- C10, as stated, fails at angle 0 and instance 0, with the real cosine and sine: the
upper-left block `M` of the instance transform has `Mᵀ * M` equal to 1/100 times the identity,
which is not the identity. -/
theorem instance_transform_not_orthogonal :
    (upperLeft (instanceTransform (⟨Real.cos, Real.sin, Real.pi⟩ : Trig ℝ) 0 0)).transpose
        * upperLeft (instanceTransform (⟨Real.cos, Real.sin, Real.pi⟩ : Trig ℝ) 0 0)
      = ((1 : ℝ) / 100) • (1 : Matrix (Fin 3) (Fin 3) ℝ) ∧
    (upperLeft (instanceTransform (⟨Real.cos, Real.sin, Real.pi⟩ : Trig ℝ) 0 0)).transpose
        * upperLeft (instanceTransform (⟨Real.cos, Real.sin, Real.pi⟩ : Trig ℝ) 0 0)
      ≠ 1 := by
  have hg := gram_instanceTransform (⟨Real.cos, Real.sin, Real.pi⟩ : Trig ℝ)
    (fun a => Real.cos_sq_add_sin_sq a) 0 0
  have hs : ((scl : ℝ) ^ 2) = 1 / 100 := by norm_num [scl]
  rw [hs] at hg
  refine ⟨hg, ?_⟩
  rw [hg]
  intro h
  have h00 := congrFun (congrFun h 0) 0
  norm_num [Matrix.smul_apply] at h00

/-- C10, amended: in exact arithmetic with `cos ^ 2 + sin ^ 2 = 1`, for every instance index
and every angle the instance transform `fullObjectRot * translate * yrot * zrot * scale` has
last row `(0, 0, 0, 1)` and its upper-left 3x3 block `M` satisfies
`Mᵀ * M = scl ^ 2 * identity` with `scl` = 0.1: `M` is 0.1 times an orthogonal matrix. -/
theorem instance_transform_scaled_rotation {R : Type} [Field R] (t : Trig R)
    (h : ∀ a, t.cos a ^ 2 + t.sin a ^ 2 = 1) (angle : R) (i : Nat) :
    IsAffine (instanceTransform t angle i) ∧
      (upperLeft (instanceTransform t angle i)).transpose
          * upperLeft (instanceTransform t angle i)
        = ((scl : R) ^ 2) • (1 : Matrix (Fin 3) (Fin 3) R) :=
  ⟨isAffine_instanceTransform t angle i, gram_instanceTransform t h angle i⟩

/-- C10, amended, with the real cosine and sine at the angle 0.01 of the first frame and the
last instance, 511. -/
theorem instance_transform_scaled_rotation_witness :
    (∀ a : ℝ, Real.cos a ^ 2 + Real.sin a ^ 2 = 1) ∧
      IsAffine (instanceTransform (⟨Real.cos, Real.sin, Real.pi⟩ : Trig ℝ) (1 / 100) 511) ∧
      (upperLeft (instanceTransform (⟨Real.cos, Real.sin, Real.pi⟩ : Trig ℝ)
          (1 / 100) 511)).transpose
          * upperLeft (instanceTransform (⟨Real.cos, Real.sin, Real.pi⟩ : Trig ℝ) (1 / 100) 511)
        = ((scl : ℝ) ^ 2) • (1 : Matrix (Fin 3) (Fin 3) ℝ) :=
  ⟨fun a => Real.cos_sq_add_sin_sq a,
    instance_transform_scaled_rotation (⟨Real.cos, Real.sin, Real.pi⟩ : Trig ℝ)
      (fun a => Real.cos_sq_add_sin_sq a) (1 / 100) 511⟩

end Renderer
end Perspective

namespace Perspective
namespace Renderer

/-! ## Claim on the camera record -/

theorem makeIdentity_eq_one {R : Type} [Field R] : (math.makeIdentity : float4x4 R) = 1 := by
  ext i j
  fin_cases i <;> fin_cases j <;> rfl

/-- The clip-space position of a point on the view axis, for any projection constants. -/
theorem makePerspective_mulVec_axis {R : Type} [Field R] (t : Trig R)
    (fovRadians aspect znear zfar z : R) :
    (math.makePerspective t fovRadians aspect znear zfar).mulVec ![0, 0, z, 1] 2
        = zfar / (znear - zfar) * (z + znear) ∧
      (math.makePerspective t fovRadians aspect znear zfar).mulVec ![0, 0, z, 1] 3 = -z := by
  constructor
  · simp [math.makePerspective, Matrix.mulVec, Matrix.dotProduct, Fin.sum_univ_four]
    ring
  · simp [math.makePerspective, Matrix.mulVec, Matrix.dotProduct, Fin.sum_univ_four]

/-- C11: for every frame, the camera record `draw` writes holds the identity as world transform
and the perspective matrix of 45 degrees, aspect 1, near 0.03 and far 500; the centre of the
near plane `(0, 0, -0.03, 1)` goes to clip `w` = 0.03 and depth `z / w` = 0, the centre of the
far plane `(0, 0, -500, 1)` to clip `w` = 500 and depth `z / w` = 1; the record does not depend
on `_angle` or `_frame`. -/
theorem camera_record_depth_range {R : Type} [Field R] [CharZero R] (t : Trig R)
    (angle : R) (frame : Int) :
    (cameraData t angle frame).perspectiveTransform
        = math.makePerspective t (45 * t.pi / 180) 1 (3 / 100) 500 ∧
      (cameraData t angle frame).worldTransform = 1 ∧
      clipPosition (cameraData t angle frame) ![0, 0, -(3 / 100), 1] 3 = 3 / 100 ∧
      depth (clipPosition (cameraData t angle frame) ![0, 0, -(3 / 100), 1]) = 0 ∧
      clipPosition (cameraData t angle frame) ![0, 0, -500, 1] 3 = 500 ∧
      depth (clipPosition (cameraData t angle frame) ![0, 0, -500, 1]) = 1 ∧
      ∀ (angle2 : R) (frame2 : Int), cameraData t angle2 frame2 = cameraData t angle frame := by
  have hw : (cameraData t angle frame).worldTransform = 1 := makeIdentity_eq_one
  have hclip : ∀ z : R, clipPosition (cameraData t angle frame) ![0, 0, z, 1]
      = (math.makePerspective t (45 * t.pi / 180) 1 (3 / 100) 500).mulVec ![0, 0, z, 1] := by
    intro z
    rw [clipPosition, hw, Matrix.mul_one]
    rfl
  obtain ⟨n2, n3⟩ := makePerspective_mulVec_axis t (45 * t.pi / 180) 1 (3 / 100) 500 (-(3 / 100))
  obtain ⟨f2, f3⟩ := makePerspective_mulVec_axis t (45 * t.pi / 180) 1 (3 / 100) 500 (-500)
  refine ⟨rfl, hw, ?_, ?_, ?_, ?_, fun _ _ => rfl⟩
  · rw [hclip, n3]; ring
  · rw [depth, hclip, n2]; simp
  · rw [hclip, f3]; ring
  · rw [depth, hclip, f2, f3]
    norm_num

/-- C11 with the real cosine and sine, at the angle 0.01 and the slot 1 of the first frame. -/
theorem camera_record_depth_range_witness :
    depth (clipPosition (cameraData (⟨Real.cos, Real.sin, Real.pi⟩ : Trig ℝ) (1 / 100) 1)
        ![0, 0, -(3 / 100), 1]) = 0 ∧
      depth (clipPosition (cameraData (⟨Real.cos, Real.sin, Real.pi⟩ : Trig ℝ) (1 / 100) 1)
        ![0, 0, -500, 1]) = 1 ∧
      (cameraData (⟨Real.cos, Real.sin, Real.pi⟩ : Trig ℝ) (1 / 100) 1).worldTransform = 1 :=
  ⟨(camera_record_depth_range (⟨Real.cos, Real.sin, Real.pi⟩ : Trig ℝ) (1 / 100) 1).2.2.2.1,
    (camera_record_depth_range (⟨Real.cos, Real.sin, Real.pi⟩ : Trig ℝ) (1 / 100) 1).2.2.2.2.2.1,
    (camera_record_depth_range (⟨Real.cos, Real.sin, Real.pi⟩ : Trig ℝ) (1 / 100) 1).2.1⟩

end Renderer
end Perspective

namespace Perspective
namespace Renderer

/-! ## Claim on the bytes a frame writes -/

/-- C13: in every reachable state, the slot a `draw` call fills has an instance buffer of
122880 bytes and a camera buffer of 384 bytes; the instance loop stores records
`0 .. kNumInstances - 1`, each inside the bytes `[0, 512 * 80)`, which lie inside the buffer
and inside the range reported as modified, `(0, length)`; the camera record covers the bytes
`[0, 128)`, which lie inside the buffer and are exactly the range reported as modified. -/
theorem draw_writes_within_buffers (s t : State) (hs : Reachable s)
    (hd : draw s = .ok t) :
    ∃ b c, t._pInstanceDataBuffer.at t._frame = some b ∧
      t._pCameraDataBuffer.at t._frame = some c ∧
      b.length = 3 * 512 * 80 ∧
      b.written = ⟨0, kNumInstances * shader_types.sizeofInstanceData⟩ ∧
      kNumInstances * shader_types.sizeofInstanceData = 512 * 80 ∧
      (∀ i, i < kNumInstances → (instanceRecordRange i).within b.written) ∧
      b.written.within ⟨0, b.length⟩ ∧
      b.modified = some ⟨0, b.length⟩ ∧
      c.length = 3 * 128 ∧
      c.written = cameraRecordRange ∧
      cameraRecordRange = ⟨0, 128⟩ ∧
      c.written.within ⟨0, c.length⟩ ∧
      c.modified = some c.written := by
  have h := inv_reachable hs
  obtain ⟨-, hf, -, -, -, -, hwi, hwc⟩ := draw_spec h hd
  obtain ⟨b0, hb0, hbl, -⟩ := h.instanceBuffers.at_slot s.writes.length
  obtain ⟨c0, hc0, hcl, -⟩ := h.cameraBuffers.at_slot s.writes.length
  rw [hb0] at hwi
  rw [hc0] at hwc
  have hbl2 : b0.length = 3 * 512 * 80 := hbl
  have hcl2 : c0.length = 3 * 128 := hcl
  refine ⟨writeInstanceData b0, writeCameraData c0, hf ▸ hwi, hf ▸ hwc, hbl2, rfl, rfl, ?_, ?_,
    rfl, hcl2, rfl, rfl, ?_, rfl⟩
  · intro i hi
    have hi2 : i < 512 := hi
    show 0 ≤ i * 80 ∧ i * 80 + 80 ≤ 0 + 512 * 80
    omega
  · show 0 ≤ 0 ∧ 0 + 512 * 80 ≤ 0 + b0.length
    omega
  · show 0 ≤ 0 ∧ 0 + 128 ≤ 0 + c0.length
    omega

/-- C13 at the first call after construction, which fills slot 1. -/
theorem draw_writes_within_buffers_witness :
    Reachable init ∧ draw init = .ok (stateAfter [.draw]) ∧
      ((stateAfter [.draw])._pInstanceDataBuffer.at (stateAfter [.draw])._frame).map
          Buffer.written = some ⟨0, 40960⟩ ∧
      ∃ b c, (stateAfter [.draw])._pInstanceDataBuffer.at (stateAfter [.draw])._frame = some b ∧
        (stateAfter [.draw])._pCameraDataBuffer.at (stateAfter [.draw])._frame = some c ∧
        b.length = 3 * 512 * 80 ∧
        b.written = ⟨0, kNumInstances * shader_types.sizeofInstanceData⟩ ∧
        kNumInstances * shader_types.sizeofInstanceData = 512 * 80 ∧
        (∀ i, i < kNumInstances → (instanceRecordRange i).within b.written) ∧
        b.written.within ⟨0, b.length⟩ ∧
        b.modified = some ⟨0, b.length⟩ ∧
        c.length = 3 * 128 ∧
        c.written = cameraRecordRange ∧
        cameraRecordRange = ⟨0, 128⟩ ∧
        c.written.within ⟨0, c.length⟩ ∧
        c.modified = some c.written :=
  ⟨⟨[], rfl⟩, rfl, rfl,
    draw_writes_within_buffers init (stateAfter [.draw]) ⟨[], rfl⟩ rfl⟩

end Renderer
end Perspective

namespace Perspective
namespace Renderer

/-! ## Claim on the cube geometry -/

theorem triangles_indices :
    triangles indices =
      [(0, 1, 2), (2, 3, 0), (1, 7, 6), (6, 2, 1), (7, 4, 5), (5, 6, 7),
       (4, 0, 3), (3, 5, 4), (3, 2, 6), (6, 5, 3), (4, 7, 1), (1, 0, 4)] := by
  decide

/-- C14: the index list of the cube has 36 = 6 * 6 entries, the index count `draw` passes to
`drawIndexedPrimitives`; every index is below 8, the number of corners; it splits into 12
triangles, and for each the normal `(Vb - Va) x (Vc - Va)` has a strictly positive dot product
with the centroid, so each is counter-clockwise seen from outside the cube; `draw` sets
counter-clockwise as the front-facing winding and culls back faces. -/
theorem cube_triangles_face_outward :
    indices.length = 36 ∧ indexCount = indices.length ∧ indexCount = 6 * 6 ∧
      verts.length = 8 ∧ (∀ i ∈ indices, i < verts.length) ∧
      (triangles indices).length = 12 ∧
      (∀ tri ∈ triangles indices, ∃ va vb vc,
        vertex tri.1 = some va ∧ vertex tri.2.1 = some vb ∧ vertex tri.2.2 = some vc ∧
        0 < outwardness va vb vc ∧ facesOutward tri = true) ∧
      frontFacingWinding = .counterClockwise ∧ cullMode = .back := by
  refine ⟨rfl, rfl, rfl, rfl, by decide, by decide, ?_, rfl, rfl⟩
  intro tri htri
  rw [triangles_indices] at htri
  simp only [List.mem_cons, List.mem_singleton, List.not_mem_nil, or_false] at htri
  rcases htri with h | h | h | h | h | h | h | h | h | h | h | h <;> subst h <;>
    refine ⟨_, _, _, rfl, rfl, rfl, ?_⟩ <;>
    norm_num [facesOutward, vertex, verts, outwardness, dot, cross, sub, s]

end Renderer
end Perspective

namespace ArgBuffers

namespace Renderer

/-- The table `buildBuffers` returns with a library, and the two buffers it points to. -/
theorem buildBuffers_table (m : Metal) (lib : Library) (d : Device) :
    ∃ r e, buildBuffers m (some lib) d = .ok (r, e) ∧
      resolve r 0 = some ⟨0, d.length, 0⟩ ∧
      resolve r 1 = some ⟨1, d.length + 1, 0⟩ ∧
      r.device[d.length]?
        = some { length := 48, contents := positions, arguments := [],
                 modified := some ⟨0, 48⟩ } ∧
      r.device[d.length + 1]?
        = some { length := 48, contents := colors, arguments := [],
                 modified := some ⟨0, 48⟩ } := by
  refine ⟨_, _, buildBuffers_eq m lib d, ?_⟩
  obtain ⟨e0, e1, e2⟩ := getElem?_append_three d
    ({ length := 48, contents := positions, arguments := [],
       modified := some ⟨0, 48⟩ } : Buffer)
    { length := 48, contents := colors, arguments := [], modified := some ⟨0, 48⟩ }
    { length := m.encodedLength, contents := [],
      arguments := [⟨1, d.length + 1, 0⟩, ⟨0, d.length, 0⟩],
      modified := some ⟨0, m.encodedLength⟩ }
  refine ⟨?_, ?_, e0, e1⟩
  · simp only [resolve, e2]
    simp
  · simp only [resolve, e2]
    simp

end Renderer

namespace Shader

/-! ## Claim on the vertex function -/

/-- The value of `vertexData->member[ vertexId ]` when the table holds an argument for the
member and the argument designates a buffer. -/
theorem eval_member_subscript (r : Renderer) (v : Nat) (member : Name) (id : Nat)
    (a : Argument) (b : Buffer) (hm : memberId member = some id)
    (ha : Renderer.resolve r id = some a) (hb : r.device[a.buffer]? = some b) :
    (eval r v (.subscript (.arrow (.ident .vertexData) member) (.ident .vertexId))).toOption
      = ((b.contents.drop (a.offset / sizeofFloat3))[v]?).map Value.vector := by
  have hl : lookup r v .vertexData = .ok (.table r._pArgBuffer) := rfl
  have hi : lookup r v .vertexId = .ok (.uint v) := rfl
  have hr : readMember r r._pArgBuffer member = .ok (.pointer a.buffer a.offset) := by
    unfold readMember
    rw [hm]
    show (match Renderer.resolve r id with
      | some a => Except.ok (Value.pointer a.buffer a.offset)
      | none => Except.error Error.unbound) = _
    rw [ha]
  simp only [eval, hl, hi, hr, readElement, hb, Option.some_bind]
  cases (b.contents.drop (a.offset / sizeofFloat3))[v]? <;> rfl

/-- C12: the vertex function as written does not read the positions through the table.  For
every vertex id and every renderer, line 70 looks up the identifier `positions` on its own; it
is neither of the two parameters, so the compiler rejects the source and the function yields no
output at all, while the color of line 71, `vertexData->colors[ vertexId ]`, reads only
parameters and, on the table `buildBuffers` builds when handed a library, is `C[v]`, and the
same form for the positions, `vertexData->positions[ vertexId ]`, would be `P[v]`. -/
theorem vertexMain_reads_undeclared_positions (m : Renderer.Metal) (lib : Renderer.Library)
    (d : Device) (v : Nat) :
    (∀ r, vertexMain r v = .error (.undeclared .positions)) ∧
      shaderSrc.compiles = false ∧
      positionExpr.identifiers = [.positions, .vertexId] ∧
      Name.positions ∉ parameters ∧
      colorExpr.identifiers = [.vertexData, .vertexId] ∧
      (∀ n ∈ colorExpr.identifiers, n ∈ parameters) ∧
      ∃ r e, Renderer.buildBuffers m (some lib) d = .ok (r, e) ∧
        vertexMain r v = .error (.undeclared .positions) ∧
        (eval r v colorExpr).toOption = (Renderer.colors[v]?).map Value.vector ∧
        (eval r v
            (.subscript (.arrow (.ident .vertexData) .positions) (.ident .vertexId))).toOption
          = (Renderer.positions[v]?).map Value.vector := by
  obtain ⟨r, e, hr, r0, r1, e0, e1⟩ := Renderer.buildBuffers_table m lib d
  refine ⟨fun _ => rfl, rfl, rfl, by decide, rfl, by decide, r, e, hr, rfl, ?_, ?_⟩
  · have h := eval_member_subscript r v .colors 1 ⟨1, d.length + 1, 0⟩ _ rfl r1 e1
    simp only [Nat.zero_div, List.drop_zero] at h
    exact h
  · have h := eval_member_subscript r v .positions 0 ⟨0, d.length, 0⟩ _ rfl r0 e0
    simp only [Nat.zero_div, List.drop_zero] at h
    exact h

end Shader
end ArgBuffers
